import Mathlib

/-!
# WebCamCap: the per-camera pipeline of `capturecamera.cpp`

A shallow embedding of `CaptureCamera` (src/capturecamera.cpp, src/capturecamera.h):
the area filter at the end of `UseFilter`, the ray construction of `CreateLines`,
`ComputeDirVector`, and the two calibration procedures `CalibNoMarkers` and
`CalibWithMarkers`.

Conventions of the embedding.

* `float` and `double` quantities are rationals. The theorems below only use
  values on which the machine arithmetic is exact (small integers, halves) or
  properties that do not depend on rounding (comparisons, copying, caching).
* `size_t` and `int` quantities are naturals. The only subtraction on the
  threshold, `thresholdValue -= 10`, is executed with `thresholdValue >= 20`
  (lemma `searchLoop_trace`), so it never wraps.
* Routines of OpenCV and GLM (`copyTo`, `absdiff`, `cvtColor`, `threshold`,
  `findContours`, `drawContours`, `circle`, `contourArea`, `moments`, the background
  subtractor, `glm::sqrt`, the trigonometry inside `glm::rotateZ` and `glm::rotateX`)
  are parameters, collected in the structure `Lib`. An image of one channel is a `Mat`
  too.
* A loop that the source does not bound is run with a fuel argument and returns
  `none` when the fuel runs out; a loop with an evident bound is a total function.
* The Qt widget, `waitKey` delays and console output are not part of the state. The
  preview drawing of `UseFilter` and `MiddleOfContours` is: it is painted into the member
  `frame`, which the next call of `UseFilter` reads.
-/

namespace WebCamCap

/-! ## Data -/

/-- The type glm::vec2. -/
structure Vec2 where
  x : ℚ
  y : ℚ
deriving DecidableEq

/-- The type glm::vec3. -/
structure Vec3 where
  x : ℚ
  y : ℚ
  z : ℚ
deriving DecidableEq

/-- The type cv::Vec3b: one pixel with three 8-bit channels, read as `[0]`, `[1]`, `[2]`. -/
structure Vec3b where
  v0 : Nat
  v1 : Nat
  v2 : Nat
deriving DecidableEq

/-- The type cv::Mat as used for colour frames: a list of rows of pixels. -/
abbrev Mat := List (List Vec3b)

/-- The member `Mat::rows`. -/
def Mat.rows (m : Mat) : Nat := m.length

/-- The member `Mat::cols`. -/
def Mat.cols (m : Mat) : Nat := (m.headD []).length

/-- The typedef `Contour` of capturecamera.h: `std::vector<cv::Point>`. -/
abbrev Contour := List (Int × Int)

/-- Modelled from the spec: the class `Line` (line.h is not among the sources). The spec
describes a Ray, named Line, as an origin and a direction; the record holds the two arguments
that `CreateLines` passes to the constructor `Line(position, directionTemp)`. -/
structure Line where
  position : Vec3
  direction : Vec3
deriving DecidableEq

/-! ## The area filter of `UseFilter` (capturecamera.cpp lines 155-163) -/

/-- The test `contArea > 500 || contArea <= 20` of the area-filter loop. -/
def outOfRange (contArea : ℚ) : Bool :=
  decide (contArea > 500) || decide (contArea ≤ 20)

/-- The loop
`for(size_t i = 0; i < contours.size(); i++) { if(out of range) contours.erase(contours.begin()+i); }`
started at index `i`: after an erase the index is still incremented. -/
def areaFilterLoop {α : Type} (contourArea : α → ℚ) (i : Nat) (contours : List α) : List α :=
  if h : i < contours.length then
    if outOfRange (contourArea contours[i]) then
      areaFilterLoop contourArea (i + 1) (contours.eraseIdx i)
    else
      areaFilterLoop contourArea (i + 1) contours
  else
    contours
termination_by contours.length - i
decreasing_by
  all_goals simp_wf
  · rw [List.length_eraseIdx]; simp [h]; omega
  · omega

/-- The number of rounds of the area-filter loop started at index `i`: the same control flow
as `areaFilterLoop`, counting one for each execution of the loop body. -/
def areaFilterRounds {α : Type} (contourArea : α → ℚ) (i : Nat) (contours : List α) : Nat :=
  if h : i < contours.length then
    if outOfRange (contourArea contours[i]) then
      areaFilterRounds contourArea (i + 1) (contours.eraseIdx i) + 1
    else
      areaFilterRounds contourArea (i + 1) contours + 1
  else
    0
termination_by contours.length - i
decreasing_by
  all_goals simp_wf
  · rw [List.length_eraseIdx]; simp [h]; omega
  · omega

/-! ## Library routines and camera state -/

/-- The type cv::Scalar, of which the code reads `val[0]`, `val[1]`, `val[2]`. -/
structure Scalar where
  val0 : ℚ
  val1 : ℚ
  val2 : ℚ
deriving DecidableEq

/-- Routines of OpenCV and GLM that the camera code calls, taken as parameters.
`copyTo src dst mask` is the destination after `src.copyTo(dst, mask)`; `mog frames` is the
foreground mask that the `BackgroundSubtractorMOG` gives once it has been fed `frames`, the
latest first; `absdiff`, `cvtColor` (to grey), `medianBlur`, `threshold img thresh maxval`
and `morphologyEx` (opening with `dilateKernel`) give their output image; `findContours img`
gives the external contours and the image it leaves behind; `drawContours img contours` and
`circle img centre` give the image painted on; `centroid` is the moment quotient
`(m10/m00, m01/m00)` of `MiddleOfContours`, `none` when a coordinate is not a number; `sqrt`
is `glm::sqrt`; `cos` and `sin` are the cosine and sine that `glm::rotateZ` and
`glm::rotateX` take of their angle argument; `mean` is `cv::mean`. -/
structure Lib where
  copyTo : Mat → Mat → Mat → Mat
  mog : List Mat → Mat
  absdiff : Mat → Mat → Mat
  cvtColor : Mat → Mat
  medianBlur : Mat → Mat
  threshold : Mat → Nat → Nat → Mat
  morphologyEx : Mat → Mat
  findContours : Mat → List Contour × Mat
  drawContours : Mat → List Contour → Mat
  circle : Mat → Vec2 → Mat
  contourArea : Contour → ℚ
  centroid : Contour → Option Vec2
  sqrt : Nat → ℚ
  cos : ℚ → ℚ
  sin : ℚ → ℚ
  mean : Mat → Scalar

/-- The members of `CaptureCamera` that capturecamera.cpp reads and writes, under the names
used there. `camera` is the capture device: the frames it will deliver, next one first.
`backgroundExtractor` is the background subtractor: the frames it has been fed, the latest
first. -/
structure CaptureCamera where
  videoUsbId : Int
  name : String
  position : Vec3
  roomDimensions : Vec3
  directionVectorToMiddle : Vec3
  angleOfView : ℚ
  anglePerPixel : ℚ
  thresholdValue : Nat
  ROI : Bool
  turnedOn : Bool
  showWindow : Bool
  useBackgroundSub : Bool
  camera : List Mat
  ROIMask : Mat
  frame : Mat
  frameBackground : Mat
  frameTemp : Mat
  MOGMask : Mat
  backgroundExtractor : List Mat
  contours : List Contour
  centerOfContour : List Vec2
  lines : List Line

/-- The statement `camera >> m`: the next frame of the device (an empty matrix once the
device has nothing more to deliver) and the device afterwards. -/
def grab (camera : List Mat) : Mat × List Mat :=
  (camera.headD [], camera.tail)

/-- The function glm::rotateZ with the cosine and sine of the angle already taken. -/
def rotateZ (lib : Lib) (v : Vec3) (angle : ℚ) : Vec3 :=
  { x := v.x * lib.cos angle - v.y * lib.sin angle
    y := v.x * lib.sin angle + v.y * lib.cos angle
    z := v.z }

/-- The function glm::rotateX with the cosine and sine of the angle already taken. -/
def rotateX (lib : Lib) (v : Vec3) (angle : ℚ) : Vec3 :=
  { x := v.x
    y := v.y * lib.cos angle - v.z * lib.sin angle
    z := v.y * lib.sin angle + v.z * lib.cos angle }

namespace CaptureCamera

/-- The method `ComputeDirVector` (lines 271-274). -/
def ComputeDirVector (cam : CaptureCamera) : CaptureCamera :=
  { cam with
    directionVectorToMiddle :=
      { x := cam.roomDimensions.x / 2 - cam.position.x
        y := cam.roomDimensions.y / 2 - cam.position.y
        z := cam.roomDimensions.z / 2 - cam.position.z } }

/-- The constructor (lines 36-63). In its body `name = name;` and
`roomDimensions = roomDimensions;` assign each parameter to itself, because the parameters
carry the names of the members; the members keep the values they were default-initialised
with, here `memberName` and `memberRoomDimensions` (the class declaration that matches this
.cpp is not among the sources). -/
def ctor (memberName : String) (memberRoomDimensions : Vec3)
    (pos _roomDimensions : Vec3) (_name : String) (ID : Int) (angle : ℚ)
    (backgroudSubstractor : Bool) : CaptureCamera :=
  ComputeDirVector
    { videoUsbId := ID
      name := memberName
      position := pos
      roomDimensions := memberRoomDimensions
      directionVectorToMiddle := ⟨0, 0, 0⟩
      angleOfView := angle
      anglePerPixel := 0
      thresholdValue := 255
      ROI := false
      turnedOn := false
      showWindow := false
      useBackgroundSub := backgroudSubstractor
      camera := []
      ROIMask := []
      frame := []
      frameBackground := []
      frameTemp := []
      MOGMask := []
      backgroundExtractor := []
      contours := []
      centerOfContour := []
      lines := [] }

/-- The inline setter `setThreshold` of capturecamera.h. -/
def setThreshold (cam : CaptureCamera) (Threshold : Nat) : CaptureCamera :=
  { cam with thresholdValue := Threshold }

/-- The slot `thresholdCam` (lines 332-335). -/
def thresholdCam (cam : CaptureCamera) (threshold : Nat) : CaptureCamera :=
  cam.setThreshold threshold

/-- The inline setter `setAngle` of capturecamera.h: `m_fov = Angle; m_anglePerPixel = 0;`. -/
def setAngle (cam : CaptureCamera) (Angle : ℚ) : CaptureCamera :=
  { cam with angleOfView := Angle, anglePerPixel := 0 }

/-- The method `TurnOn` (lines 337-373); `opened` is the outcome of `camera.open(videoUsbId)`:
the frames of the opened device, or `none` when the device does not open. -/
def TurnOn (cam : CaptureCamera) (opened : Option (List Mat)) : CaptureCamera :=
  if cam.turnedOn then cam
  else
    match opened with
    | some stream => { cam with camera := stream, turnedOn := true }
    | none => { cam with turnedOn := false }

/-- The method `TurnOff` (lines 375-384). -/
def TurnOff (cam : CaptureCamera) : CaptureCamera :=
  if cam.turnedOn then { cam with turnedOn := false, camera := [] } else cam

/-- The slot `turnedOnCam` (lines 320-330). -/
def turnedOnCam (cam : CaptureCamera) (turnedOn : Bool) (opened : Option (List Mat)) :
    CaptureCamera :=
  if turnedOn then cam.TurnOn opened else cam.TurnOff

/-- The inline setter `setROI` of capturecamera.h. -/
def setROI (cam : CaptureCamera) (roi : Mat) : CaptureCamera :=
  { cam with ROIMask := roi, ROI := true }

/-- The function `myColorThreshold` (lines 284-306): grey conversion, then binary threshold. -/
def myColorThreshold (lib : Lib) (input : Mat) (thresholdValue maxValue : Nat) : Mat :=
  lib.threshold (lib.cvtColor input) thresholdValue maxValue

/-- Lines 125-129 of `UseFilter`: `frame.copyTo(ROIMask, ROIMask); ROIMask.copyTo(frame);`
when a region of interest is set. -/
def maskROI (lib : Lib) (cam : CaptureCamera) : CaptureCamera :=
  if cam.ROI then
    { cam with
      ROIMask := lib.copyTo cam.frame cam.ROIMask cam.ROIMask
      frame := lib.copyTo cam.frame cam.ROIMask cam.ROIMask }
  else
    cam

/-- Lines 131-144 of `UseFilter`: with the background subtractor, the frame is fed to it and
copied into `frameTemp` under its mask; without, the difference to `frameBackground` is
thresholded at 20 and the frame is copied into `frameTemp` under that mask. -/
def foreground (lib : Lib) (cam : CaptureCamera) : CaptureCamera :=
  if cam.useBackgroundSub then
    { cam with
      backgroundExtractor := cam.frame :: cam.backgroundExtractor
      MOGMask := lib.mog (cam.frame :: cam.backgroundExtractor)
      frameTemp :=
        lib.copyTo cam.frame cam.frameTemp (lib.mog (cam.frame :: cam.backgroundExtractor)) }
  else
    { cam with
      frameTemp :=
        lib.copyTo cam.frame
          (myColorThreshold lib (lib.absdiff cam.frame cam.frameBackground) 20 255)
          (myColorThreshold lib (lib.absdiff cam.frame cam.frameBackground) 20 255) }

/-- Lines 146-153 of `UseFilter`: grey conversion, median blur, binary threshold at
`thresholdValue`, opening, contour extraction. -/
def extract (lib : Lib) (cam : CaptureCamera) : CaptureCamera :=
  { cam with
    frameTemp :=
      (lib.findContours (lib.morphologyEx
        (lib.threshold (lib.medianBlur (lib.cvtColor cam.frameTemp)) cam.thresholdValue 255))).2
    contours :=
      (lib.findContours (lib.morphologyEx
        (lib.threshold (lib.medianBlur (lib.cvtColor cam.frameTemp)) cam.thresholdValue 255))).1 }

/-- Lines 155-165 of `UseFilter`: the area filter, then
`drawContours(frame, contours, -1, contourColor, CV_FILLED)`, which paints into `frame`. -/
def filterAndDraw (lib : Lib) (cam : CaptureCamera) : CaptureCamera :=
  { cam with
    contours := areaFilterLoop lib.contourArea 0 cam.contours
    frame := lib.drawContours cam.frame (areaFilterLoop lib.contourArea 0 cam.contours) }

/-- The method `UseFilter` (lines 123-166). -/
def UseFilter (lib : Lib) (cam : CaptureCamera) : CaptureCamera :=
  filterAndDraw lib (extract lib (foreground lib (maskROI lib cam)))

/-- The method `MiddleOfContours` (lines 230-248): one centre per contour, those that are not
a number dropped; for each centre kept, `circle(frame, ...)` paints into `frame`, in the
order of the contours. -/
def MiddleOfContours (lib : Lib) (cam : CaptureCamera) : CaptureCamera :=
  { cam with
    centerOfContour := cam.contours.filterMap lib.centroid
    frame := (cam.contours.filterMap lib.centroid).foldl lib.circle cam.frame }

/-- The body of the loop of `CreateLines` (lines 261-267) for one centre, with the
`anglePerPixel` in force: `frame.cols/2` and `frame.rows/2` are integer divisions. -/
def lineOf (lib : Lib) (cam : CaptureCamera) (anglePerPixel : ℚ) (c : Vec2) : Line :=
  let centerRelativeTemp : Vec2 :=
    { x := c.x - ((cam.frame.cols / 2 : Nat) : ℚ), y := c.y - ((cam.frame.rows / 2 : Nat) : ℚ) }
  let directionTemp :=
    rotateZ lib cam.directionVectorToMiddle (-centerRelativeTemp.x * anglePerPixel)
  let directionTemp := rotateX lib directionTemp (-centerRelativeTemp.y * anglePerPixel)
  { position := cam.position, direction := directionTemp }

/-- The method `CreateLines` (lines 250-269). -/
def CreateLines (lib : Lib) (cam : CaptureCamera) : CaptureCamera :=
  let anglePerPixel :=
    if cam.anglePerPixel = 0 then
      cam.angleOfView /
        lib.sqrt (cam.frame.cols * cam.frame.cols + cam.frame.rows * cam.frame.rows)
    else cam.anglePerPixel
  { cam with
    anglePerPixel := anglePerPixel
    lines := cam.centerOfContour.map (lineOf lib cam anglePerPixel) }

/-- The three calls `UseFilter(); MiddleOfContours(); CreateLines();`. The camera they
leave holds the frame as painted: the next call reads that frame. -/
def pipeline (lib : Lib) (cam : CaptureCamera) : CaptureCamera :=
  CreateLines lib (MiddleOfContours lib (UseFilter lib cam))

/-- The method `Save` (lines 405-409): the text of `outputFile` after the call. `showFloat`
is the text that `operator<<` writes for a `float`; an `int` is written in decimal;
`std::endl` is a line feed. -/
def Save (showFloat : ℚ → String) (cam : CaptureCamera) (outputFile : String) : String :=
  outputFile ++ cam.name ++ " " ++ showFloat cam.position.x ++ " " ++ showFloat cam.position.y
    ++ " " ++ showFloat cam.position.z ++ " " ++ toString cam.videoUsbId ++ " "
    ++ showFloat cam.angleOfView ++ "\n"

/-! ### Background calibration: `CalibNoMarkers` (lines 411-463) -/

/-- The access `m.at<Vec3b>(i,j)`; outside the matrix (undefined in C++) a black pixel. -/
def pixelAt (m : Mat) (i j : Nat) : Vec3b :=
  (m.getD i []).getD j ⟨0, 0, 0⟩

/-- The assignment `m.at<Vec3b>(i,j) = p`; outside the matrix (undefined in C++) no change. -/
def setPixel (m : Mat) (i j : Nat) (p : Vec3b) : Mat :=
  m.set i ((m.getD i []).set j p)

/-- The position `(i, j)` lies inside the matrix. -/
def inside (m : Mat) (i j : Nat) : Bool :=
  decide (i < m.length) && decide (j < (m.getD i []).length)

/-- Some channel of the pixel `p` exceeds the same channel of the pixel `q`: the test of
line 452. -/
def outshines (p q : Vec3b) : Bool :=
  decide (p.v0 > q.v0) || decide (p.v1 > q.v1) || decide (p.v2 > q.v2)

/-- The body of the inner loop (lines 452-455): when some channel of the sample exceeds the
same channel of the reference, the whole pixel of the sample is copied into the reference. -/
def pixelStep (temp : Mat) (frameBackground : Mat) (i j : Nat) : Mat :=
  if (pixelAt temp i j).v0 > (pixelAt frameBackground i j).v0
      ∨ (pixelAt temp i j).v1 > (pixelAt frameBackground i j).v1
      ∨ (pixelAt temp i j).v2 > (pixelAt frameBackground i j).v2 then
    setPixel frameBackground i j (pixelAt temp i j)
  else
    frameBackground

/-- The two nested loops over `temp.rows` and `temp.cols` (lines 448-457). -/
def envelope (temp : Mat) (frameBackground : Mat) : Mat :=
  (List.range (Mat.rows temp)).foldl
    (fun bg i => (List.range (Mat.cols temp)).foldl (fun bg j => pixelStep temp bg i j) bg)
    frameBackground

/-- The loop `for(size_t i = 0; i < 50; i++)` (lines 441-461) from index `i` with `k = 50 - i`
rounds left: a frame is read in every round, and used while `i < 15`. -/
def backgroundLoop : Nat → Nat → List Mat → Mat → List Mat × Mat
  | 0, _, camera, frameBackground => (camera, frameBackground)
  | k + 1, i, camera, frameBackground =>
    let temp := (grab camera).1
    let camera := (grab camera).2
    if i < 15 then backgroundLoop k (i + 1) camera (envelope temp frameBackground)
    else backgroundLoop k (i + 1) camera frameBackground

/-- The condition of the stabilisation loop (line 428) apart from `i < maxIters`. -/
def meanMoved (lastMeanValue meanValue : Scalar) : Bool :=
  decide (|lastMeanValue.val0 - meanValue.val0| > 1)
    || decide (|lastMeanValue.val1 - meanValue.val1| > 1)
    || decide (|lastMeanValue.val2 - meanValue.val2| > 1)

/-- The stabilisation loop (lines 428-435) with `k = maxIters - i` rounds left. -/
def meanLoop (lib : Lib) : Nat → List Mat → Mat → Scalar → Scalar → List Mat × Mat
  | 0, camera, frameBackground, _, _ => (camera, frameBackground)
  | k + 1, camera, frameBackground, lastMeanValue, meanValue =>
    if meanMoved lastMeanValue meanValue then
      meanLoop lib k (grab camera).2 (grab camera).1 meanValue (lib.mean (grab camera).1)
    else
      (camera, frameBackground)

/-- The method `CalibNoMarkers` (lines 411-463). Each of the 50 rounds of the second loop
also feeds the member `frame`, which the loop does not change, to the background
subtractor (line 444). -/
def CalibNoMarkers (lib : Lib) (cam : CaptureCamera) : CaptureCamera :=
  if cam.turnedOn then
    let first := grab cam.camera
    let lastMeanValue := lib.mean first.1
    let second := grab first.2
    let meanValue := lib.mean second.1
    let stable := meanLoop lib 10 second.2 second.1 lastMeanValue meanValue
    let done := backgroundLoop 50 0 stable.1 stable.2
    { cam with
      camera := done.1
      frameBackground := done.2
      backgroundExtractor := List.replicate 50 cam.frame ++ cam.backgroundExtractor
      MOGMask := lib.mog (List.replicate 50 cam.frame ++ cam.backgroundExtractor) }
  else
    cam

/-! ### Threshold calibration: `CalibWithMarkers` (lines 465-546) -/

/-- The loop `for(size_t i = 0; i < 15; i++) { camera >> frame; }` (lines 474-478) with `k`
rounds left. -/
def warmUp : Nat → CaptureCamera → CaptureCamera
  | 0, cam => cam
  | k + 1, cam => warmUp k { cam with frame := (grab cam.camera).1, camera := (grab cam.camera).2 }

/-- The first loop, `while(thresholdValue > 20)` (lines 483-508). One unit of fuel is one
round. When the lines are neither none nor `numOfMarkers` many, the round neither decrements
nor breaks. -/
def searchLoop (lib : Lib) (numOfMarkers : Nat) : Nat → CaptureCamera → Option CaptureCamera
  | 0, _ => none
  | fuel + 1, cam =>
    if cam.thresholdValue > 20 then
      let cam := pipeline lib cam
      if cam.lines.length = 0 then
        searchLoop lib numOfMarkers fuel { cam with thresholdValue := cam.thresholdValue - 1 }
      else if numOfMarkers = 0 then
        some cam
      else if cam.lines.length = numOfMarkers then
        some cam
      else
        searchLoop lib numOfMarkers fuel cam
    else
      some cam

/-- The second loop, `while(thresholdValue > 0)` (lines 524-538), by recursion on the value
`tv` of `thresholdValue` at the head of the loop; the result is the camera and
`thresholdLow`, which is 0 unless the loop breaks. -/
def growLoop (lib : Lib) (nLines : Nat) : Nat → CaptureCamera → CaptureCamera × Nat
  | 0, cam => (cam, 0)
  | tv + 1, cam =>
    let cam := pipeline lib { cam with thresholdValue := tv }
    if nLines < cam.lines.length then (cam, tv) else growLoop lib nLines tv cam

/-- The part of `CalibWithMarkers` after the first loop (lines 510-542), on the camera that
left the first loop: the camera afterwards, whose threshold is the final one. At the
subtraction `thresholdValue -= 10` the threshold is at least 20. -/
def settle (lib : Lib) (cam : CaptureCamera) : CaptureCamera :=
  let cam := pipeline lib { cam with thresholdValue := cam.thresholdValue - 10 }
  let nLines := cam.lines.length
  let thresholdUp := cam.thresholdValue
  let low := growLoop lib nLines cam.thresholdValue cam
  let thresholdLow := low.2
  { low.1 with thresholdValue := thresholdLow + (thresholdUp + thresholdLow) / 8 }

/-- The method `CalibWithMarkers` (lines 465-546) for `numOfMarkers >= 0`: the camera
afterwards and the returned value, or `none` when the first loop is still running after
`fuel` rounds. -/
def CalibWithMarkers (lib : Lib) (fuel : Nat) (cam : CaptureCamera) (numOfMarkers : Nat) :
    Option (CaptureCamera × Nat) :=
  let cam := { cam with thresholdValue := 255 }
  if cam.turnedOn then
    match searchLoop lib numOfMarkers fuel (warmUp 15 cam) with
    | none => none
    | some cam => some (settle lib cam, (settle lib cam).thresholdValue)
  else
    some (cam, cam.thresholdValue)

/-- The observations of the first loop: for each round, in order, the threshold at which
the pipeline ran and the `lines.size()` it left. Same control flow as `searchLoop`. -/
def searchTrace (lib : Lib) (numOfMarkers : Nat) : Nat → CaptureCamera → List (Nat × Nat)
  | 0, _ => []
  | fuel + 1, cam =>
    if cam.thresholdValue > 20 then
      let cam := pipeline lib cam
      (cam.thresholdValue, cam.lines.length) ::
        (if cam.lines.length = 0 then
          searchTrace lib numOfMarkers fuel { cam with thresholdValue := cam.thresholdValue - 1 }
        else if numOfMarkers = 0 then
          []
        else if cam.lines.length = numOfMarkers then
          []
        else
          searchTrace lib numOfMarkers fuel cam)
    else
      []

/-- The observations of the second loop: for each round, in order, the threshold at which
the pipeline ran and the `lines.size()` it left. Same control flow as `growLoop`. -/
def growTrace (lib : Lib) (nLines : Nat) : Nat → CaptureCamera → List (Nat × Nat)
  | 0, _ => []
  | tv + 1, cam =>
    let cam := pipeline lib { cam with thresholdValue := tv }
    (tv, cam.lines.length) ::
      (if nLines < cam.lines.length then [] else growTrace lib nLines tv cam)

/-- The camera on which the first loop of `CalibWithMarkers` starts: threshold 255, fifteen
frames read. -/
def calibStart (cam : CaptureCamera) : CaptureCamera :=
  warmUp 15 { cam with thresholdValue := 255 }

/-- The camera after the pipeline has run at the upper bound (lines 511-515), for the camera
`cam` that left the first loop. -/
def atUpper (lib : Lib) (cam : CaptureCamera) : CaptureCamera :=
  pipeline lib { cam with thresholdValue := cam.thresholdValue - 10 }

/-- The camera states that a run of `CalibWithMarkers` can pass through from `start`: by runs
of the pipeline, each of which may repaint the frame, and by assignments to `thresholdValue`. -/
inductive Evolves (lib : Lib) (start : CaptureCamera) : CaptureCamera → Prop
  | start : Evolves lib start start
  | pipeline (c : CaptureCamera) : Evolves lib start c → Evolves lib start (pipeline lib c)
  | threshold (c : CaptureCamera) (t : Nat) :
      Evolves lib start c → Evolves lib start { c with thresholdValue := t }

/-- The blob count is the function `count` of the threshold throughout a run of
`CalibWithMarkers` started on `cam`: in whatever state the run can be, painted frame
included, the pipeline run at threshold `t` leaves `count t` lines. -/
def Observes (lib : Lib) (cam : CaptureCamera) (count : Nat → Nat) : Prop :=
  ∀ c, Evolves lib (calibStart cam) c → (pipeline lib c).lines.length = count c.thresholdValue

end CaptureCamera

/-! ## The calibration search on thresholds alone

The two loops of `CalibWithMarkers` touch `thresholdValue` and read only `lines.size()`.
The functions below are the same loops on the threshold, for a blob count `count` given as a
function of the threshold; `CalibWithMarkers_eq_calibValue` ties them to the method when the
run sees that function throughout. The second group is the same loops on the frame and the
threshold, for a pipeline that repaints the frame; `CalibWithMarkers_eq_calibScene` ties
them to the method. -/

/-- The first loop of `CalibWithMarkers` on the threshold alone. -/
def searchValue (count : Nat → Nat) (numOfMarkers : Nat) : Nat → Nat → Option Nat
  | 0, _ => none
  | fuel + 1, thresholdValue =>
    if thresholdValue > 20 then
      if count thresholdValue = 0 then
        searchValue count numOfMarkers fuel (thresholdValue - 1)
      else if numOfMarkers = 0 then
        some thresholdValue
      else if count thresholdValue = numOfMarkers then
        some thresholdValue
      else
        searchValue count numOfMarkers fuel thresholdValue
    else
      some thresholdValue

/-- The second loop of `CalibWithMarkers` on the threshold alone: `thresholdLow`. -/
def growValue (count : Nat → Nat) (nLines : Nat) : Nat → Nat
  | 0 => 0
  | tv + 1 => if nLines < count tv then tv else growValue count nLines tv

/-- The value `CalibWithMarkers` returns on a turned-on camera, on the threshold alone. -/
def calibValue (count : Nat → Nat) (numOfMarkers fuel : Nat) : Option Nat :=
  match searchValue count numOfMarkers fuel 255 with
  | none => none
  | some q =>
    let thresholdUp := q - 10
    let thresholdLow := growValue count (count thresholdUp) thresholdUp
    some (thresholdLow + (thresholdUp + thresholdLow) / 8)

/-- The first loop of `CalibWithMarkers` on the frame and the threshold, for a pipeline
given as a function `look` from the frame and the threshold to the blob count and the frame
as painted. -/
def searchScene (look : Mat → Nat → Nat × Mat) (numOfMarkers : Nat) :
    Nat → Mat → Nat → Option (Mat × Nat)
  | 0, _, _ => none
  | fuel + 1, frame, thresholdValue =>
    if thresholdValue > 20 then
      if (look frame thresholdValue).1 = 0 then
        searchScene look numOfMarkers fuel (look frame thresholdValue).2 (thresholdValue - 1)
      else if numOfMarkers = 0 then
        some ((look frame thresholdValue).2, thresholdValue)
      else if (look frame thresholdValue).1 = numOfMarkers then
        some ((look frame thresholdValue).2, thresholdValue)
      else
        searchScene look numOfMarkers fuel (look frame thresholdValue).2 thresholdValue
    else
      some (frame, thresholdValue)

/-- The second loop of `CalibWithMarkers` on the frame and the threshold: `thresholdLow`. -/
def growScene (look : Mat → Nat → Nat × Mat) (nLines : Nat) : Nat → Mat → Nat
  | 0, _ => 0
  | tv + 1, frame =>
    if nLines < (look frame tv).1 then tv else growScene look nLines tv (look frame tv).2

/-- The value `CalibWithMarkers` returns on a turned-on camera, on the frame and the
threshold. -/
def calibScene (look : Mat → Nat → Nat × Mat) (numOfMarkers fuel : Nat) (frame : Mat) :
    Option Nat :=
  match searchScene look numOfMarkers fuel frame 255 with
  | none => none
  | some found =>
    let thresholdUp := found.2 - 10
    let seen := look found.1 thresholdUp
    let thresholdLow := growScene look seen.1 thresholdUp seen.2
    some (thresholdLow + (thresholdUp + thresholdLow) / 8)

/-- An observed blob count `c` meets the target `numOfMarkers`: it is not 0 and, for a target
other than 0, it is the target. An observation that meets the target ends the first loop. -/
def Meets (numOfMarkers c : Nat) : Prop :=
  c ≠ 0 ∧ (numOfMarkers = 0 ∨ c = numOfMarkers)

/-- A threshold qualifies in the search when the pipeline yields some blobs there and, for a
target count other than 0, exactly the target count. -/
def Qualifies (count : Nat → Nat) (numOfMarkers t : Nat) : Prop :=
  count t ≠ 0 ∧ (numOfMarkers = 0 ∨ count t = numOfMarkers)

/-- The squared Euclidean length of a vector. -/
def lengthSq (v : Vec3) : ℚ :=
  v.x * v.x + v.y * v.y + v.z * v.z

/-- The sum `frame.cols * frame.cols + frame.rows * frame.rows` of which `CreateLines` takes
the square root. -/
def diagSq (frame : Mat) : Nat :=
  Mat.cols frame * Mat.cols frame + Mat.rows frame * Mat.rows frame

/-- Successive calls of `CreateLines`, each on a newly read frame of the list. -/
def framesRun (lib : Lib) (cam : CaptureCamera) (frames : List Mat) : CaptureCamera :=
  frames.foldl (fun c f => CaptureCamera.CreateLines lib { c with frame := f }) cam

/-- The camera states that a newly constructed camera reaches through `setThreshold` and
`thresholdCam` with arguments in 0..255, `turnedOnCam`, and runs of `CalibWithMarkers` that
return. -/
inductive Reachable : CaptureCamera → Prop
  | ctor (memberName : String) (memberRoomDimensions pos roomDimensions : Vec3) (name : String)
      (ID : Int) (angle : ℚ) (backgroudSubstractor : Bool) :
      Reachable (CaptureCamera.ctor memberName memberRoomDimensions pos roomDimensions name ID
        angle backgroudSubstractor)
  | setThreshold (cam : CaptureCamera) (Threshold : Nat) :
      Reachable cam → Threshold ≤ 255 → Reachable (cam.setThreshold Threshold)
  | thresholdCam (cam : CaptureCamera) (threshold : Nat) :
      Reachable cam → threshold ≤ 255 → Reachable (cam.thresholdCam threshold)
  | turnedOnCam (cam : CaptureCamera) (turnedOn : Bool) (opened : Option (List Mat)) :
      Reachable cam → Reachable (cam.turnedOnCam turnedOn opened)
  | CalibWithMarkers (lib : Lib) (fuel : Nat) (cam : CaptureCamera) (numOfMarkers : Nat)
      (cam' : CaptureCamera) (r : Nat) :
      Reachable cam → CaptureCamera.CalibWithMarkers lib fuel cam numOfMarkers = some (cam', r) →
      Reachable cam'

/-! ## Sample inputs -/

/-- A blob count with a noise floor right below the marker range: no blob above threshold
200, one blob from 190 to 200, five blobs below 190. -/
def noisyCount (t : Nat) : Nat :=
  if t > 200 then 0 else if t ≥ 190 then 1 else 5

/-- A blob count of one marker visible at every threshold up to 200. -/
def cleanCount (t : Nat) : Nat :=
  if t ≤ 200 then 1 else 0

/-- A blob count of one blob from threshold 245 up and two blobs below. -/
def brightCount (t : Nat) : Nat :=
  if t ≥ 245 then 1 else 2

/-- A blob count of no blob at any threshold. -/
def noBlobs (_ : Nat) : Nat := 0


/-- A scripted library whose pipeline yields `count t` blobs at threshold `t` whatever the
frame: `threshold` leaves the threshold in its output image, `findContours` finds
`count t` one-point contours in an image thresholded at `t`, each of area 100 and centre
(0, 0); the other image routines pass their first argument on and nothing is painted. The
square root is exact on perfect squares; cosine and sine are those of the rotation with
half-angle tangent `a`, which are rational, exact at 0 and satisfy `cos^2 + sin^2 = 1`. -/
def countLib (count : Nat → Nat) : Lib :=
  { copyTo := fun src _ _ => src
    mog := fun _ => []
    absdiff := fun a _ => a
    cvtColor := fun img => img
    medianBlur := fun img => img
    threshold := fun _ thresh _ => [[⟨thresh, 0, 0⟩]]
    morphologyEx := fun img => img
    findContours := fun img =>
      (List.replicate (count (CaptureCamera.pixelAt img 0 0).v0) [(0, 0)], img)
    drawContours := fun img _ => img
    circle := fun img _ => img
    contourArea := fun _ => 100
    centroid := fun _ => some ⟨0, 0⟩
    sqrt := fun n => (Nat.sqrt n : ℚ)
    cos := fun a => (1 - a * a) / (1 + a * a)
    sin := fun a => 2 * a / (1 + a * a)
    mean := fun _ => ⟨0, 0, 0⟩ }

/-- The grey level of a pixel in blue, green, red order, as `cvtColor` takes it. -/
def grey (p : Vec3b) : Nat :=
  (114 * p.v0 + 587 * p.v1 + 299 * p.v2) / 1000

/-- The contours of the sample library `paintLib`: one one-point contour `[(x, y)]` for each
pixel of the image that is not 0, row by row. -/
def pointContours (img : Mat) : List Contour :=
  ((List.range img.length).map fun i =>
    (List.range (img.getD i []).length).filterMap fun j =>
      if (CaptureCamera.pixelAt img i j).v0 = 0 then none
      else some [((j : Int), (i : Int))]).flatten

/-- The painting of the sample library `paintLib`: every point of every contour becomes
red, (0, 0, 255) in blue, green, red order. -/
def paintRed (img : Mat) (contours : List Contour) : Mat :=
  contours.foldl
    (fun f contour =>
      contour.foldl (fun f pt => CaptureCamera.setPixel f pt.2.toNat pt.1.toNat ⟨0, 0, 255⟩) f)
    img

/-- A sample library that works on the pixels and paints: every pixel is foreground
(`copyTo` passes the frame on whatever the mask), `cvtColor` takes grey levels, `threshold`
is the binary threshold, every pixel above the threshold is a blob of its own, of area 100
and centred on the pixel, and `drawContours` paints the blobs red, grey level 76. The
centre mark of `circle`, which in the code covers a part of a blob only, is left out. -/
def paintLib : Lib :=
  { copyTo := fun src _ _ => src
    mog := fun _ => []
    absdiff := fun a _ => a
    cvtColor := fun img => img.map fun row => row.map fun p => ⟨grey p, 0, 0⟩
    medianBlur := fun img => img
    threshold := fun img thresh maxval =>
      img.map fun row => row.map fun p => if p.v0 > thresh then ⟨maxval, 0, 0⟩ else ⟨0, 0, 0⟩
    morphologyEx := fun img => img
    findContours := fun img => (pointContours img, img)
    drawContours := paintRed
    circle := fun img _ => img
    contourArea := fun _ => 100
    centroid := fun contour =>
      some ⟨((contour.headD (0, 0)).1 : ℚ), ((contour.headD (0, 0)).2 : ℚ)⟩
    sqrt := fun n => (Nat.sqrt n : ℚ)
    cos := fun a => (1 - a * a) / (1 + a * a)
    sin := fun a => 2 * a / (1 + a * a)
    mean := fun _ => ⟨0, 0, 0⟩ }

/-- The pipeline of `paintLib` as a function of the frame and the threshold: the number of
pixels whose grey level is above the threshold, and the frame with those pixels painted. -/
def paintLook (frame : Mat) (thresholdValue : Nat) : Nat × Mat :=
  ((pointContours (paintLib.threshold (paintLib.cvtColor frame) thresholdValue 255)).length,
    paintRed frame
      (pointContours (paintLib.threshold (paintLib.cvtColor frame) thresholdValue 255)))

/-- A frame of one pixel: a marker of grey level 200. -/
def markerFrame : Mat := [[⟨200, 200, 200⟩]]

/-- A frame of the given width and height, all black. -/
def blackFrame (width height : Nat) : Mat :=
  List.replicate height (List.replicate width ⟨0, 0, 0⟩)

/-- A camera as the constructor leaves it, at the origin of a room of dimensions (4, 0, 0),
with field of view 60. -/
def sampleCam : CaptureCamera :=
  CaptureCamera.ctor "Camera" ⟨4, 0, 0⟩ ⟨0, 0, 0⟩ ⟨4, 0, 0⟩ "Cam1" 0 60 false

/-- The sample camera turned on, on a device that delivers no frame. -/
def sampleCamOn : CaptureCamera :=
  sampleCam.TurnOn (some [])

/-- The sample camera turned on, on a device that delivers the marker frame fifteen times. -/
def markerCam : CaptureCamera :=
  sampleCam.TurnOn (some (List.replicate 15 markerFrame))

/-- The sample camera holding a frame of 4 by 4 pixels and one blob centre, at the frame
centre (4/2, 4/2). -/
def centredCam : CaptureCamera :=
  { sampleCam with frame := blackFrame 4 4, centerOfContour := [⟨2, 2⟩] }

/-- The sample camera holding a frame of 3 by 4 pixels and one blob centre, at the exact
centre (3/2, 4/2) of the frame. -/
def oddCam : CaptureCamera :=
  { sampleCam with frame := blackFrame 3 4, centerOfContour := [⟨3 / 2, 2⟩] }

/-- A reference frame of one pixel, (10, 50, 10). -/
def darkRef : Mat := [[⟨10, 50, 10⟩]]

/-- A sampled frame of one pixel, (20, 0, 0): brighter than `darkRef` in channel 0 only. -/
def brightSample : Mat := [[⟨20, 0, 0⟩]]

/-- The sample camera turned on, on a device that delivers `darkRef` twice and then
`brightSample`. -/
def calibCam : CaptureCamera :=
  sampleCam.TurnOn (some [darkRef, darkRef, brightSample])

/-- A text for a `float` that agrees with `operator<<` on whole numbers of fewer than seven
digits, the only values the samples write. -/
def showWhole (q : ℚ) : String :=
  if q.den = 1 then toString q.num else toString q.num ++ "/" ++ toString q.den


/-! ## Lemmas on the area filter -/

theorem areaFilterLoop_in_range {α : Type} (contourArea : α → ℚ) (i : Nat) (contours : List α)
    (h : ∀ c ∈ contours, outOfRange (contourArea c) = false) :
    areaFilterLoop contourArea i contours = contours := by
  induction i, contours using areaFilterLoop.induct contourArea with
  | case1 i cs hi hout _ =>
    have := h cs[i] (List.getElem_mem _)
    simp [hout] at this
  | case2 i cs hi hout ih =>
    rw [areaFilterLoop]
    simp [hi, hout, ih h]
  | case3 i cs hi =>
    rw [areaFilterLoop]
    simp [hi]

theorem filter_eraseIdx_of_not {α : Type} (p : α → Bool) (l : List α) (i : Nat)
    (hi : i < l.length) (hp : p l[i] = false) : (l.eraseIdx i).filter p = l.filter p := by
  induction l generalizing i with
  | nil => simp at hi
  | cons a l ih =>
    cases i with
    | zero =>
      simp only [List.getElem_cons_zero] at hp
      simp [List.filter_cons, hp]
    | succ i =>
      simp only [List.getElem_cons_succ] at hp
      simp only [List.eraseIdx_cons_succ, List.filter_cons]
      rw [ih i (by simpa using hi) hp]

/-- The output of the loop is a sublist of its input: nothing is added, reordered or
duplicated. -/
theorem areaFilterLoop_sublist {α : Type} (contourArea : α → ℚ) (i : Nat) (contours : List α) :
    (areaFilterLoop contourArea i contours).Sublist contours := by
  induction i, contours using areaFilterLoop.induct contourArea with
  | case1 i cs hi hout ih =>
    rw [areaFilterLoop]
    simp only [hi, hout, dite_true, if_true]
    exact ih.trans (List.eraseIdx_sublist cs i)
  | case2 i cs hi hout ih =>
    rw [areaFilterLoop]
    simp only [hi, hout, dite_true]
    exact ih
  | case3 i cs hi =>
    rw [areaFilterLoop]
    simp [hi]

/-- The in-range contours of the input, in their order, are a sublist of the output: the loop
erases out-of-range contours only. -/
theorem areaFilterLoop_keeps {α : Type} (contourArea : α → ℚ) (i : Nat) (contours : List α) :
    (contours.filter (fun c => !outOfRange (contourArea c))).Sublist
      (areaFilterLoop contourArea i contours) := by
  induction i, contours using areaFilterLoop.induct contourArea with
  | case1 i cs hi hout ih =>
    rw [areaFilterLoop]
    simp only [hi, hout, dite_true, if_true]
    rw [filter_eraseIdx_of_not _ cs i hi (by simp [hout])] at ih
    exact ih
  | case2 i cs hi hout ih =>
    rw [areaFilterLoop]
    simp only [hi, hout, dite_true]
    exact ih
  | case3 i cs hi =>
    rw [areaFilterLoop]
    simp only [hi, dite_false]
    exact List.filter_sublist cs

/-- The loop started at index `i` runs at most once for each contour from `i` on. -/
theorem areaFilterRounds_le {α : Type} (contourArea : α → ℚ) (i : Nat) (contours : List α) :
    areaFilterRounds contourArea i contours ≤ contours.length - i := by
  induction i, contours using areaFilterRounds.induct contourArea with
  | case1 i cs hi hout ih =>
    rw [areaFilterRounds, dif_pos hi, if_pos hout]
    rw [List.length_eraseIdx] at ih
    simp only [hi, if_true] at ih
    omega
  | case2 i cs hi hout ih =>
    rw [areaFilterRounds, dif_pos hi, if_neg hout]
    omega
  | case3 i cs hi =>
    rw [areaFilterRounds]
    simp [hi]

/-! ## Lemmas on the pipeline -/

namespace CaptureCamera

@[simp] theorem maskROI_thresholdValue (lib : Lib) (cam : CaptureCamera) :
    (maskROI lib cam).thresholdValue = cam.thresholdValue := by
  unfold maskROI; split <;> rfl

@[simp] theorem maskROI_turnedOn (lib : Lib) (cam : CaptureCamera) :
    (maskROI lib cam).turnedOn = cam.turnedOn := by
  unfold maskROI; split <;> rfl

@[simp] theorem foreground_thresholdValue (lib : Lib) (cam : CaptureCamera) :
    (foreground lib cam).thresholdValue = cam.thresholdValue := by
  unfold foreground; split <;> rfl

@[simp] theorem foreground_turnedOn (lib : Lib) (cam : CaptureCamera) :
    (foreground lib cam).turnedOn = cam.turnedOn := by
  unfold foreground; split <;> rfl

/-- The pipeline does not write `thresholdValue`. -/
@[simp] theorem pipeline_thresholdValue (lib : Lib) (cam : CaptureCamera) :
    (pipeline lib cam).thresholdValue = cam.thresholdValue := by
  simp [pipeline, CreateLines, MiddleOfContours, UseFilter, filterAndDraw, extract]

/-- The pipeline does not write `turnedOn`. -/
@[simp] theorem pipeline_turnedOn (lib : Lib) (cam : CaptureCamera) :
    (pipeline lib cam).turnedOn = cam.turnedOn := by
  simp [pipeline, CreateLines, MiddleOfContours, UseFilter, filterAndDraw, extract]

/-- The lines the pipeline leaves: one for each centre of a contour that passed the area
filter. -/
theorem pipeline_lines_length (lib : Lib) (cam : CaptureCamera) :
    (pipeline lib cam).lines.length
      = ((areaFilterLoop lib.contourArea 0
          (extract lib (foreground lib (maskROI lib cam))).contours).filterMap
            lib.centroid).length := by
  simp [pipeline, CreateLines, MiddleOfContours, UseFilter, filterAndDraw]

@[simp] theorem warmUp_thresholdValue (k : Nat) (cam : CaptureCamera) :
    (warmUp k cam).thresholdValue = cam.thresholdValue := by
  induction k generalizing cam with
  | zero => rfl
  | succ k ih => simp [warmUp, ih]

@[simp] theorem warmUp_turnedOn (k : Nat) (cam : CaptureCamera) :
    (warmUp k cam).turnedOn = cam.turnedOn := by
  induction k generalizing cam with
  | zero => rfl
  | succ k ih => simp [warmUp, ih]

end CaptureCamera

/-- The scripted library yields `count t` lines at threshold `t` on every camera. -/
theorem pipeline_countLib (count : Nat → Nat) (cam : CaptureCamera) :
    (CaptureCamera.pipeline (countLib count) cam).lines.length = count cam.thresholdValue := by
  rw [CaptureCamera.pipeline_lines_length, areaFilterLoop_in_range]
  · simp [CaptureCamera.extract, countLib, CaptureCamera.pixelAt, List.filterMap_replicate]
  · intro c _
    simp [countLib, outOfRange]
    norm_num

theorem observes_countLib (count : Nat → Nat) (cam : CaptureCamera) :
    CaptureCamera.Observes (countLib count) cam count :=
  fun c _ => pipeline_countLib count c

/-! ## Lemmas on the background loop -/

namespace CaptureCamera

/-- Writing a pixel changes at most the pixel written. -/
theorem pixelAt_setPixel (m : Mat) (i j i' j' : Nat) (p : Vec3b) :
    pixelAt (setPixel m i j p) i' j' = pixelAt m i' j'
      ∨ (i' = i ∧ j' = j ∧ pixelAt (setPixel m i j p) i' j' = p) := by
  simp only [pixelAt, setPixel, List.getD_eq_getElem?_getD, List.getElem?_set]
  by_cases hi : i = i'
  · subst hi
    by_cases hlen : i < List.length m
    · simp only [hlen, if_true, Option.getD_some, List.getElem?_set]
      by_cases hj : j = j'
      · subst hj
        by_cases hjl : j < (m[i]?.getD []).length
        · right; simp [hjl]
        · left
          simp [hjl, List.getElem?_eq_none (Nat.le_of_not_lt hjl)]
      · left; simp [hj]
    · left
      simp [hlen, List.getElem?_eq_none (Nat.le_of_not_lt hlen)]
  · left; simp [hi]

/-- After one step of the inner loop every pixel of the reference is the one it was or the
pixel of the sample at the same place. -/
theorem pixelStep_pixel (temp frameBackground : Mat) (i j r c : Nat) :
    pixelAt (pixelStep temp frameBackground i j) r c = pixelAt frameBackground r c
      ∨ pixelAt (pixelStep temp frameBackground i j) r c = pixelAt temp r c := by
  unfold pixelStep
  split
  · rcases pixelAt_setPixel frameBackground i j r c (pixelAt temp i j) with h | ⟨h1, h2, h3⟩
    · exact Or.inl h
    · right
      rw [h3, h1, h2]
  · exact Or.inl rfl

theorem rowFold_pixel (temp : Mat) (i r c : Nat) (js : List Nat) :
    ∀ bg : Mat,
      pixelAt (js.foldl (fun bg j => pixelStep temp bg i j) bg) r c = pixelAt bg r c
        ∨ pixelAt (js.foldl (fun bg j => pixelStep temp bg i j) bg) r c = pixelAt temp r c := by
  induction js with
  | nil => intro bg; exact Or.inl rfl
  | cons j js ih =>
    intro bg
    simp only [List.foldl_cons]
    rcases ih (pixelStep temp bg i j) with h | h
    · rcases pixelStep_pixel temp bg i j r c with h2 | h2
      · exact Or.inl (h.trans h2)
      · exact Or.inr (h.trans h2)
    · exact Or.inr h

theorem matFold_pixel (temp : Mat) (js : List Nat) (r c : Nat) (is : List Nat) :
    ∀ bg : Mat,
      pixelAt (is.foldl (fun bg i => js.foldl (fun bg j => pixelStep temp bg i j) bg) bg) r c
          = pixelAt bg r c
        ∨ pixelAt (is.foldl (fun bg i => js.foldl (fun bg j => pixelStep temp bg i j) bg) bg) r c
          = pixelAt temp r c := by
  induction is with
  | nil => intro bg; exact Or.inl rfl
  | cons i is ih =>
    intro bg
    simp only [List.foldl_cons]
    rcases ih (js.foldl (fun bg j => pixelStep temp bg i j) bg) with h | h
    · rcases rowFold_pixel temp i r c js bg with h2 | h2
      · exact Or.inl (h.trans h2)
      · exact Or.inr (h.trans h2)
    · exact Or.inr h

/-- After the two nested loops every pixel of the reference is the one it was or the pixel of
the sample at the same place. -/
theorem envelope_pixel (temp frameBackground : Mat) (r c : Nat) :
    pixelAt (envelope temp frameBackground) r c = pixelAt frameBackground r c
      ∨ pixelAt (envelope temp frameBackground) r c = pixelAt temp r c :=
  matFold_pixel temp _ r c _ frameBackground

/-- From round 15 on the loop leaves the reference as it is. -/
theorem backgroundLoop_late (k : Nat) :
    ∀ (i : Nat) (camera : List Mat) (frameBackground : Mat), 15 ≤ i →
      (backgroundLoop k i camera frameBackground).2 = frameBackground := by
  induction k with
  | zero => intro i camera bg _; rfl
  | succ k ih =>
    intro i camera bg hi
    simp only [backgroundLoop]
    rw [if_neg (by omega)]
    exact ih (i + 1) _ bg (by omega)

/-- Every round reads one frame from the device. -/
theorem backgroundLoop_camera (k : Nat) :
    ∀ (i : Nat) (camera : List Mat) (frameBackground : Mat),
      (backgroundLoop k i camera frameBackground).1 = camera.drop k := by
  induction k with
  | zero => intro i camera bg; rfl
  | succ k ih =>
    intro i camera bg
    simp only [backgroundLoop]
    split
    · rw [ih]; cases camera <;> simp [grab]
    · rw [ih]; cases camera <;> simp [grab]

/-- The loop of `a + b` rounds is the loop of `a` rounds followed by the loop of `b` rounds. -/
theorem backgroundLoop_add (a b : Nat) :
    ∀ (i : Nat) (camera : List Mat) (frameBackground : Mat),
      backgroundLoop (a + b) i camera frameBackground
        = backgroundLoop b (i + a) (backgroundLoop a i camera frameBackground).1
            (backgroundLoop a i camera frameBackground).2 := by
  induction a with
  | zero => intro i camera bg; simp [backgroundLoop]
  | succ a ih =>
    intro i camera bg
    rw [show a + 1 + b = (a + b) + 1 by omega]
    simp only [backgroundLoop]
    split
    · rw [ih]; congr 1; omega
    · rw [ih]; congr 1; omega

/-- After the loop every pixel of the reference is the one it was before the loop or the
pixel, at the same place, of one of the samples read in the rounds below 15. -/
theorem backgroundLoop_pixel (k : Nat) (r c : Nat) :
    ∀ (i : Nat) (camera : List Mat) (frameBackground : Mat),
      pixelAt (backgroundLoop k i camera frameBackground).2 r c = pixelAt frameBackground r c
        ∨ ∃ n, i + n < 15 ∧ n < k
            ∧ pixelAt (backgroundLoop k i camera frameBackground).2 r c
                = pixelAt (camera.getD n []) r c := by
  induction k with
  | zero => intro i camera bg; exact Or.inl rfl
  | succ k ih =>
    intro i camera bg
    have hhead : (grab camera).1 = camera.getD 0 [] := by cases camera <;> rfl
    have htail : ∀ n, (grab camera).2.getD n [] = camera.getD (n + 1) [] := by
      intro n; cases camera <;> simp [grab]
    simp only [backgroundLoop]
    by_cases hi : i < 15
    · rw [if_pos hi]
      rcases ih (i + 1) (grab camera).2 (envelope (grab camera).1 bg) with h | ⟨n, h1, h2, h3⟩
      · rcases envelope_pixel (grab camera).1 bg r c with h2 | h2
        · exact Or.inl (h.trans h2)
        · right
          exact ⟨0, by omega, by omega, by rw [h, h2, hhead]⟩
      · right
        exact ⟨n + 1, by omega, by omega, by rw [h3, htail]⟩
    · rw [if_neg hi]
      rcases ih (i + 1) (grab camera).2 bg with h | ⟨n, h1, h2, h3⟩
      · exact Or.inl h
      · exact absurd h1 (by omega)

/-- On a turned-on camera the reference `CalibNoMarkers` leaves is the one the
background-building loop of 50 rounds leaves. -/
theorem CalibNoMarkers_frameBackground (lib : Lib) (cam : CaptureCamera)
    (hon : cam.turnedOn = true) :
    (CaptureCamera.CalibNoMarkers lib cam).frameBackground
      = (CaptureCamera.backgroundLoop 50 0
          (CaptureCamera.meanLoop lib 10 (grab (grab cam.camera).2).2 (grab (grab cam.camera).2).1
            (lib.mean (grab cam.camera).1) (lib.mean (grab (grab cam.camera).2).1)).1
          (CaptureCamera.meanLoop lib 10 (grab (grab cam.camera).2).2 (grab (grab cam.camera).2).1
            (lib.mean (grab cam.camera).1) (lib.mean (grab (grab cam.camera).2).1)).2).2 := by
  simp [CaptureCamera.CalibNoMarkers, hon]

/-- Writing a pixel changes exactly the pixel written, when it lies inside the matrix. -/
theorem pixelAt_setPixel_eq (m : Mat) (i j r c : Nat) (p : Vec3b) :
    pixelAt (setPixel m i j p) r c
      = if r = i ∧ c = j ∧ inside m i j = true then p else pixelAt m r c := by
  simp only [pixelAt, setPixel, inside, List.getD_eq_getElem?_getD, List.getElem?_set,
    Bool.and_eq_true, decide_eq_true_eq]
  by_cases hi : i = r
  · subst hi
    by_cases hlen : i < List.length m
    · simp only [hlen, if_true, Option.getD_some, List.getElem?_set, true_and]
      by_cases hj : j = c
      · subst hj
        by_cases hjl : j < (m[i]?.getD []).length
        · simp [hjl]
        · simp [hjl, List.getElem?_eq_none (Nat.le_of_not_lt hjl)]
      · have hj' : ¬ c = j := fun h => hj h.symm
        simp [hj, hj']
    · simp [hlen, List.getElem?_eq_none (Nat.le_of_not_lt hlen)]
  · have hi' : ¬ r = i := fun h => hi h.symm
    simp [hi, hi']

/-- Writing a pixel does not change the shape of the matrix. -/
theorem inside_setPixel (m : Mat) (i j r c : Nat) (p : Vec3b) :
    inside (setPixel m i j p) r c = inside m r c := by
  simp only [inside, setPixel, List.length_set, List.getD_eq_getElem?_getD, List.getElem?_set]
  by_cases hi : i = r
  · subst hi
    by_cases hlen : i < List.length m
    · simp [hlen]
    · simp [hlen, List.getElem?_eq_none (Nat.le_of_not_lt hlen)]
  · simp [hi]

/-- One step of the inner loop: the pixel `(i, j)` of the reference, when inside it, becomes
the pixel of the sample if that one outshines it; no other pixel changes. -/
theorem pixelStep_eq (temp bg : Mat) (i j r c : Nat) :
    pixelAt (pixelStep temp bg i j) r c
      = if r = i ∧ c = j ∧ inside bg i j = true
            ∧ outshines (pixelAt temp i j) (pixelAt bg i j) = true then
          pixelAt temp i j
        else pixelAt bg r c := by
  unfold pixelStep
  by_cases hout : outshines (pixelAt temp i j) (pixelAt bg i j) = true
  · have hcond : (pixelAt temp i j).v0 > (pixelAt bg i j).v0
        ∨ (pixelAt temp i j).v1 > (pixelAt bg i j).v1
        ∨ (pixelAt temp i j).v2 > (pixelAt bg i j).v2 := by
      simpa [outshines, or_assoc] using hout
    rw [if_pos hcond, pixelAt_setPixel_eq]
    simp [hout]
  · have hcond : ¬ ((pixelAt temp i j).v0 > (pixelAt bg i j).v0
        ∨ (pixelAt temp i j).v1 > (pixelAt bg i j).v1
        ∨ (pixelAt temp i j).v2 > (pixelAt bg i j).v2) := by
      simpa [outshines, or_assoc] using hout
    rw [if_neg hcond]
    simp [hout]

theorem inside_pixelStep (temp bg : Mat) (i j r c : Nat) :
    inside (pixelStep temp bg i j) r c = inside bg r c := by
  unfold pixelStep
  split
  · exact inside_setPixel bg i j r c _
  · rfl

/-- The inner loop over the columns below `n` of row `i`. -/
theorem rowFold_eq (temp : Mat) (i : Nat) (n : Nat) (bg : Mat) :
    (∀ r c,
        pixelAt ((List.range n).foldl (fun b j => pixelStep temp b i j) bg) r c
          = if r = i ∧ c < n ∧ inside bg r c = true
                ∧ outshines (pixelAt temp r c) (pixelAt bg r c) = true then
              pixelAt temp r c
            else pixelAt bg r c)
      ∧ ∀ r c,
          inside ((List.range n).foldl (fun b j => pixelStep temp b i j) bg) r c
            = inside bg r c := by
  induction n with
  | zero =>
    refine ⟨?_, fun r c => rfl⟩
    intro r c
    simp
  | succ n ih =>
    obtain ⟨ih1, ih2⟩ := ih
    rw [List.range_succ, List.foldl_append]
    simp only [List.foldl_cons, List.foldl_nil]
    refine ⟨?_, ?_⟩
    · intro r c
      rw [pixelStep_eq, ih2, ih1 i n, ih1 r c]
      by_cases hr : r = i
      · by_cases hc : c = n
        · subst hr; subst hc
          simp
        · have h1 : c < n + 1 ↔ c < n := by omega
          simp [hr, hc, h1]
      · simp [hr]
    · intro r c
      rw [inside_pixelStep, ih2]

/-- The two nested loops over the rows below `m` and the columns below `n`. -/
theorem matFold_eq (temp : Mat) (n : Nat) (m : Nat) (bg : Mat) :
    (∀ r c,
        pixelAt ((List.range m).foldl
            (fun b i => (List.range n).foldl (fun b j => pixelStep temp b i j) b) bg) r c
          = if r < m ∧ c < n ∧ inside bg r c = true
                ∧ outshines (pixelAt temp r c) (pixelAt bg r c) = true then
              pixelAt temp r c
            else pixelAt bg r c)
      ∧ ∀ r c,
          inside ((List.range m).foldl
              (fun b i => (List.range n).foldl (fun b j => pixelStep temp b i j) b) bg) r c
            = inside bg r c := by
  induction m with
  | zero =>
    refine ⟨?_, fun r c => rfl⟩
    intro r c
    simp
  | succ m ih =>
    obtain ⟨ih1, ih2⟩ := ih
    rw [List.range_succ, List.foldl_append]
    simp only [List.foldl_cons, List.foldl_nil]
    refine ⟨?_, ?_⟩
    · intro r c
      rw [(rowFold_eq temp m n _).1 r c, ih2, ih1 r c]
      by_cases hr : r = m
      · subst hr
        simp
      · have h1 : r < m + 1 ↔ r < m := by omega
        simp [hr, h1]
    · intro r c
      rw [(rowFold_eq temp m n _).2 r c, ih2]

/-- The rule of the background-building step: at every position inside the rows and
columns of the sample and inside the reference, the pixel of the reference becomes the
whole pixel of the sample when some channel of the sample exceeds that channel of the
reference, and stays what it was otherwise; no other pixel changes. -/
theorem envelope_eq (temp bg : Mat) (r c : Nat) :
    pixelAt (envelope temp bg) r c
      = if r < Mat.rows temp ∧ c < Mat.cols temp ∧ inside bg r c = true
            ∧ outshines (pixelAt temp r c) (pixelAt bg r c) = true then
          pixelAt temp r c
        else pixelAt bg r c :=
  (matFold_eq temp (Mat.cols temp) (Mat.rows temp) bg).1 r c

/-- The reference after the loop is the reference after the steps for the samples of the
rounds below 15, in the order in which they are read. -/
theorem backgroundLoop_fold (k : Nat) :
    ∀ (i : Nat) (camera : List Mat) (bg : Mat),
      (backgroundLoop k i camera bg).2
        = (camera.take (min k (15 - i))).foldl (fun b temp => envelope temp b) bg := by
  induction k with
  | zero => intro i camera bg; simp [backgroundLoop]
  | succ k ih =>
    intro i camera bg
    simp only [backgroundLoop]
    by_cases hi : i < 15
    · rw [if_pos hi, ih]
      have hmin : min (k + 1) (15 - i) = min k (15 - (i + 1)) + 1 := by omega
      rw [hmin]
      cases camera with
      | nil => simp [grab, envelope, Mat.rows]
      | cons f fs => simp [grab]
    · rw [if_neg hi, ih]
      have h1 : min k (15 - (i + 1)) = 0 := by omega
      have h2 : min (k + 1) (15 - i) = 0 := by omega
      rw [h1, h2]
      simp

end CaptureCamera

/-! ## Lemmas on the calibration search -/

/-- What the first loop has established when it is left at `q`, having started at `t`. -/
theorem searchValue_spec (count : Nat → Nat) (n : Nat) :
    ∀ fuel t q, searchValue count n fuel t = some q →
      q ≤ t ∧ (20 ≤ t → 20 ≤ q) ∧ (∀ u, q < u → u ≤ t → count u = 0)
        ∧ (20 < q → Qualifies count n q) := by
  intro fuel
  induction fuel with
  | zero => intro t q h; simp [searchValue] at h
  | succ fuel ih =>
    intro t q h
    simp only [searchValue] at h
    split_ifs at h with h20 h0 hn hc
    · obtain ⟨h1, h2, h3, h4⟩ := ih (t - 1) q h
      refine ⟨by omega, fun _ => h2 (by omega), ?_, h4⟩
      intro u hu hut
      by_cases hx : u = t
      · rw [hx]; exact h0
      · exact h3 u hu (by omega)
    · simp only [Option.some.injEq] at h
      subst h
      exact ⟨le_refl _, fun h => h, fun u hu hut => by omega, fun _ => ⟨h0, Or.inl hn⟩⟩
    · simp only [Option.some.injEq] at h
      subst h
      exact ⟨le_refl _, fun h => h, fun u hu hut => by omega, fun _ => ⟨h0, Or.inr hc⟩⟩
    · exact ih t q h
    · simp only [Option.some.injEq] at h
      subst h
      exact ⟨le_refl _, fun h => h, fun u hu hut => by omega, fun h => absurd h h20⟩

/-- A round at a threshold above 20 whose blob count is neither 0 nor the target leaves the
threshold where it is: the first loop is never left. -/
theorem searchValue_stuck (count : Nat → Nat) (n t : Nat) (h20 : t > 20) (h0 : count t ≠ 0)
    (hn : n ≠ 0) (hc : count t ≠ n) : ∀ fuel, searchValue count n fuel t = none := by
  intro fuel
  induction fuel with
  | zero => rfl
  | succ fuel ih => simp [searchValue, h20, h0, hn, hc, ih]

/-- With no blob at any threshold the first loop is left at 20, after `t - 20` decrements. -/
theorem searchValue_zero (count : Nat → Nat) (n : Nat) (hz : ∀ t, count t = 0) :
    ∀ d t, 20 ≤ t → t ≤ 20 + d → searchValue count n (d + 1) t = some 20 := by
  intro d
  induction d with
  | zero =>
    intro t h1 h2
    have : t = 20 := by omega
    subst this
    simp [searchValue]
  | succ d ih =>
    intro t h1 h2
    by_cases h20 : t > 20
    · rw [searchValue]
      simp only [h20, if_true, hz t]
      exact ih (t - 1) (by omega) (by omega)
    · have : t = 20 := by omega
      subst this
      simp [searchValue]

/-- What the second loop has established: `thresholdLow` is the largest threshold below the
upper bound whose blob count exceeds `nLines`, or 0 when there is none. -/
theorem growValue_spec (count : Nat → Nat) (nLines : Nat) :
    ∀ up, (growValue count nLines up < up ∧ nLines < count (growValue count nLines up)
            ∧ ∀ u, growValue count nLines up < u → u < up → count u ≤ nLines)
          ∨ (growValue count nLines up = 0 ∧ ∀ u, u < up → count u ≤ nLines) := by
  intro up
  induction up with
  | zero => right; exact ⟨rfl, fun u hu => absurd hu (Nat.not_lt_zero u)⟩
  | succ tv ih =>
    simp only [growValue]
    by_cases h : nLines < count tv
    · rw [if_pos h]
      left
      exact ⟨Nat.lt_succ_self tv, h, fun u h1 h2 => by omega⟩
    · rw [if_neg h]
      rcases ih with ⟨h1, h2, h3⟩ | ⟨h1, h3⟩
      · left
        refine ⟨by omega, h2, ?_⟩
        intro u hu hut
        by_cases hx : u = tv
        · rw [hx]; omega
        · exact h3 u hu (by omega)
      · right
        refine ⟨h1, ?_⟩
        intro u hut
        by_cases hx : u = tv
        · rw [hx]; omega
        · exact h3 u (by omega)

theorem growValue_le (count : Nat → Nat) (nLines up : Nat) :
    growValue count nLines up ≤ up - 1 := by
  rcases growValue_spec count nLines up with ⟨h, _⟩ | ⟨h, _⟩ <;> omega

theorem growValue_zero (count : Nat → Nat) (nLines : Nat) (hz : ∀ t, count t = 0) :
    ∀ up, growValue count nLines up = 0 := by
  intro up
  induction up with
  | zero => rfl
  | succ tv ih => simp [growValue, hz tv, ih]

/-- The returned value in terms of the threshold `q` at which the first loop is left. -/
theorem calibValue_some (count : Nat → Nat) (n fuel r : Nat)
    (h : calibValue count n fuel = some r) :
    ∃ q, searchValue count n fuel 255 = some q
      ∧ r = growValue count (count (q - 10)) (q - 10)
            + (q - 10 + growValue count (count (q - 10)) (q - 10)) / 8 := by
  unfold calibValue at h
  cases hs : searchValue count n fuel 255 with
  | none => rw [hs] at h; simp at h
  | some q =>
    rw [hs] at h
    simp only [Option.some.injEq] at h
    exact ⟨q, rfl, h.symm⟩

theorem calibValue_le (count : Nat → Nat) (n fuel r : Nat)
    (h : calibValue count n fuel = some r) : r ≤ 305 := by
  obtain ⟨q, hq, hr⟩ := calibValue_some count n fuel r h
  obtain ⟨h1, h2, _, _⟩ := searchValue_spec count n fuel 255 q hq
  have := growValue_le count (count (q - 10)) (q - 10)
  have := h2 (by omega)
  omega

theorem map_snd_eq_some {α β : Type} (x : Option (α × β)) (b : β)
    (h : x.map Prod.snd = some b) : ∃ a, x = some (a, b) := by
  cases x with
  | none => simp at h
  | some p =>
    obtain ⟨a, b'⟩ := p
    simp only [Option.map_some', Option.some.injEq] at h
    exact ⟨a, by rw [h]⟩

/-! ## Lemmas on the loops of `CalibWithMarkers` -/

namespace CaptureCamera

/-- What the first loop has established when it is left on the camera `c`, in terms of the
observations it made: the thresholds run down from the start to `c.thresholdValue` without
a gap, an observation that meets the target is at the threshold where the loop is left,
and above 20 the loop is left on such an observation. -/
theorem searchLoop_trace (lib : Lib) (n : Nat) :
    ∀ (fuel : Nat) (cam c : CaptureCamera), searchLoop lib n fuel cam = some c →
      c.thresholdValue ≤ cam.thresholdValue
        ∧ (20 ≤ cam.thresholdValue → 20 ≤ c.thresholdValue)
        ∧ c.turnedOn = cam.turnedOn
        ∧ (∀ p ∈ searchTrace lib n fuel cam,
            c.thresholdValue ≤ p.1 ∧ p.1 ≤ cam.thresholdValue ∧ 20 < p.1
              ∧ (Meets n p.2 → p.1 = c.thresholdValue))
        ∧ (20 < c.thresholdValue →
            (c.thresholdValue, c.lines.length) ∈ searchTrace lib n fuel cam
              ∧ Meets n c.lines.length)
        ∧ (∀ u, 20 < u → c.thresholdValue ≤ u → u ≤ cam.thresholdValue →
            ∃ k, (u, k) ∈ searchTrace lib n fuel cam) := by
  intro fuel
  induction fuel with
  | zero => intro cam c h; simp [searchLoop] at h
  | succ fuel ih =>
    intro cam c h
    rw [searchLoop] at h
    rw [searchTrace]
    have hpt : (pipeline lib cam).thresholdValue = cam.thresholdValue :=
      pipeline_thresholdValue lib cam
    have hpo : (pipeline lib cam).turnedOn = cam.turnedOn := pipeline_turnedOn lib cam
    by_cases h20 : cam.thresholdValue > 20
    · rw [if_pos h20] at h
      rw [if_pos h20]
      dsimp only at h ⊢
      by_cases h0 : (pipeline lib cam).lines.length = 0
      · rw [if_pos h0] at h
        rw [if_pos h0]
        generalize hcam1 : ({ pipeline lib cam with
          thresholdValue := (pipeline lib cam).thresholdValue - 1 } : CaptureCamera) = cam1
          at h ⊢
        have e1 : cam1.thresholdValue = cam.thresholdValue - 1 := by
          rw [← hcam1, ← hpt]
        have e2 : cam1.turnedOn = cam.turnedOn := by
          rw [← hcam1, ← hpo]
        obtain ⟨i1, i2, i3, i4, i5, i6⟩ := ih cam1 c h
        refine ⟨by omega, fun _ => i2 (by omega), i3.trans e2, ?_, ?_, ?_⟩
        · intro p hp
          rcases List.mem_cons.mp hp with rfl | hp
          · refine ⟨by simp only; omega, by simp only; omega, by simp only; omega, ?_⟩
            intro hm
            exact absurd h0 hm.1
          · obtain ⟨j1, j2, j3, j4⟩ := i4 p hp
            exact ⟨j1, by omega, j3, j4⟩
        · intro hq
          exact ⟨List.mem_cons_of_mem _ (i5 hq).1, (i5 hq).2⟩
        · intro u hu1 hu2 hu3
          by_cases hx : u = cam.thresholdValue
          · exact ⟨(pipeline lib cam).lines.length, by rw [hx, ← hpt]; exact List.mem_cons_self _ _⟩
          · obtain ⟨k, hk⟩ := i6 u hu1 hu2 (by omega)
            exact ⟨k, List.mem_cons_of_mem _ hk⟩
      · rw [if_neg h0] at h
        rw [if_neg h0]
        by_cases hmeet : n = 0 ∨ (pipeline lib cam).lines.length = n
        · have hc : c = pipeline lib cam := by
            rcases hmeet with hn | hn
            · rw [if_pos hn] at h
              exact (Option.some.inj h).symm
            · by_cases hn0 : n = 0
              · rw [if_pos hn0] at h
                exact (Option.some.inj h).symm
              · rw [if_neg hn0, if_pos hn] at h
                exact (Option.some.inj h).symm
          have htr : (if n = 0 then ([] : List (Nat × Nat))
              else if (pipeline lib cam).lines.length = n then []
              else searchTrace lib n fuel (pipeline lib cam)) = [] := by
            rcases hmeet with hn | hn
            · rw [if_pos hn]
            · by_cases hn0 : n = 0
              · rw [if_pos hn0]
              · rw [if_neg hn0, if_pos hn]
          rw [htr, hc]
          refine ⟨by omega, fun _ => by omega, hpo, ?_, ?_, ?_⟩
          · intro p hp
            rw [List.mem_singleton.mp hp]
            exact ⟨le_refl _, by simp only; omega, by simp only; omega, fun _ => rfl⟩
          · intro _
            exact ⟨List.mem_singleton.mpr rfl, h0, hmeet⟩
          · intro u _ hu2 hu3
            have hu : u = (pipeline lib cam).thresholdValue := by omega
            exact ⟨(pipeline lib cam).lines.length, by rw [hu]; exact List.mem_singleton.mpr rfl⟩
        · have hn0 : ¬ n = 0 := fun hn => hmeet (Or.inl hn)
          have hne : ¬ (pipeline lib cam).lines.length = n := fun hn => hmeet (Or.inr hn)
          rw [if_neg hn0, if_neg hne] at h
          rw [if_neg hn0, if_neg hne]
          obtain ⟨i1, i2, i3, i4, i5, i6⟩ := ih (pipeline lib cam) c h
          refine ⟨by omega, fun h => i2 (by omega), i3.trans hpo, ?_, ?_, ?_⟩
          · intro p hp
            rcases List.mem_cons.mp hp with rfl | hp
            · refine ⟨i1, by simp only; omega, by simp only; omega, ?_⟩
              intro hm
              exact absurd hm.2 hmeet
            · obtain ⟨j1, j2, j3, j4⟩ := i4 p hp
              exact ⟨j1, by omega, j3, j4⟩
          · intro hq
            exact ⟨List.mem_cons_of_mem _ (i5 hq).1, (i5 hq).2⟩
          · intro u hu1 hu2 hu3
            obtain ⟨k, hk⟩ := i6 u hu1 hu2 (by omega)
            exact ⟨k, List.mem_cons_of_mem _ hk⟩
    · rw [if_neg h20] at h
      rw [if_neg h20]
      have hc : c = cam := (Option.some.inj h).symm
      subst hc
      refine ⟨le_refl _, fun h => h, rfl, ?_, ?_, ?_⟩
      · intro p hp
        exact absurd hp (List.not_mem_nil p)
      · intro hq
        exact absurd hq h20
      · intro u hu1 _ hu3
        exact absurd (lt_of_lt_of_le hu1 hu3) h20

/-- What the second loop has established, in terms of the observations it made: the
thresholds run down from `tv - 1` to `thresholdLow` without a gap, every observation above
`thresholdLow` is at most `nLines`, and `thresholdLow` is the threshold of an observation
above `nLines`, or 0 when there is none. -/
theorem growLoop_trace (lib : Lib) (nLines : Nat) :
    ∀ (tv : Nat) (cam : CaptureCamera),
      (growLoop lib nLines tv cam).1.turnedOn = cam.turnedOn
        ∧ (growLoop lib nLines tv cam).2 ≤ tv - 1
        ∧ (∀ p ∈ growTrace lib nLines tv cam,
            (growLoop lib nLines tv cam).2 ≤ p.1 ∧ p.1 < tv
              ∧ ((growLoop lib nLines tv cam).2 < p.1 → p.2 ≤ nLines))
        ∧ (((growLoop lib nLines tv cam).2 < tv
              ∧ ∃ k, ((growLoop lib nLines tv cam).2, k) ∈ growTrace lib nLines tv cam
                  ∧ nLines < k)
            ∨ ((growLoop lib nLines tv cam).2 = 0
              ∧ ∀ p ∈ growTrace lib nLines tv cam, p.2 ≤ nLines))
        ∧ (∀ u, (growLoop lib nLines tv cam).2 ≤ u → u < tv →
            ∃ k, (u, k) ∈ growTrace lib nLines tv cam) := by
  intro tv
  induction tv with
  | zero =>
    intro cam
    refine ⟨rfl, le_refl _, ?_, Or.inr ⟨rfl, ?_⟩, ?_⟩
    · intro p hp; exact absurd hp (List.not_mem_nil p)
    · intro p hp; exact absurd hp (List.not_mem_nil p)
    · intro u _ hu; exact absurd hu (Nat.not_lt_zero u)
  | succ tv ih =>
    intro cam
    rw [growLoop, growTrace]
    generalize hcam1 : pipeline lib ({ cam with thresholdValue := tv } : CaptureCamera) = cam1
    have e2 : cam1.turnedOn = cam.turnedOn := by
      rw [← hcam1, pipeline_turnedOn]
    by_cases hgrow : nLines < cam1.lines.length
    · rw [if_pos hgrow, if_pos hgrow]
      refine ⟨e2, by simp only; omega, ?_, Or.inl ⟨Nat.lt_succ_self tv, cam1.lines.length,
        List.mem_singleton.mpr rfl, hgrow⟩, ?_⟩
      · intro p hp
        rw [List.mem_singleton.mp hp]
        exact ⟨le_refl _, Nat.lt_succ_self tv, fun h => absurd h (lt_irrefl _)⟩
      · intro u hu1 hu2
        have hu : u = tv := by
          simp only at hu1
          omega
        exact ⟨cam1.lines.length, by rw [hu]; exact List.mem_singleton.mpr rfl⟩
    · rw [if_neg hgrow, if_neg hgrow]
      obtain ⟨i1, i2, i3, i4, i5⟩ := ih cam1
      refine ⟨i1.trans e2, by omega, ?_, ?_, ?_⟩
      · intro p hp
        rcases List.mem_cons.mp hp with rfl | hp
        · exact ⟨by simp only; omega, Nat.lt_succ_self tv, fun _ => Nat.le_of_not_lt hgrow⟩
        · obtain ⟨j1, j2, j3⟩ := i3 p hp
          exact ⟨j1, by omega, j3⟩
      · rcases i4 with ⟨j1, k, j2, j3⟩ | ⟨j1, j2⟩
        · exact Or.inl ⟨by omega, k, List.mem_cons_of_mem _ j2, j3⟩
        · right
          refine ⟨j1, ?_⟩
          intro p hp
          rcases List.mem_cons.mp hp with rfl | hp
          · exact Nat.le_of_not_lt hgrow
          · exact j2 p hp
      · intro u hu1 hu2
        by_cases hx : u = tv
        · exact ⟨cam1.lines.length, by rw [hx]; exact List.mem_cons_self _ _⟩
        · obtain ⟨k, hk⟩ := i5 u hu1 (by omega)
          exact ⟨k, List.mem_cons_of_mem _ hk⟩

/-- The threshold that `settle` stores, spelled out. -/
theorem settle_thresholdValue (lib : Lib) (c : CaptureCamera) :
    (settle lib c).thresholdValue
      = (growLoop lib (atUpper lib c).lines.length (c.thresholdValue - 10) (atUpper lib c)).2
          + (c.thresholdValue - 10
              + (growLoop lib (atUpper lib c).lines.length (c.thresholdValue - 10)
                  (atUpper lib c)).2) / 8 := by
  show (growLoop lib _ (pipeline lib _).thresholdValue _).2
      + ((pipeline lib _).thresholdValue + (growLoop lib _ (pipeline lib _).thresholdValue _).2) / 8
    = _
  rw [pipeline_thresholdValue]
  rfl

theorem settle_turnedOn (lib : Lib) (c : CaptureCamera) :
    (settle lib c).turnedOn = c.turnedOn := by
  show (growLoop lib _ _ _).1.turnedOn = _
  rw [(growLoop_trace lib _ _ _).1, pipeline_turnedOn]

/-- On a turned-on camera a run of `CalibWithMarkers` that returns has left the first loop on
some camera `c` and returns the threshold that `settle` stores. -/
theorem CalibWithMarkers_on (lib : Lib) (fuel : Nat) (cam : CaptureCamera) (n : Nat)
    (hon : cam.turnedOn = true) :
    CalibWithMarkers lib fuel cam n
      = (searchLoop lib n fuel (calibStart cam)).map
          (fun c => (settle lib c, (settle lib c).thresholdValue)) := by
  have hdef : CalibWithMarkers lib fuel cam n
      = match searchLoop lib n fuel (calibStart cam) with
        | none => none
        | some c => some (settle lib c, (settle lib c).thresholdValue) := by
    simp [CalibWithMarkers, hon, calibStart]
  rw [hdef]
  cases searchLoop lib n fuel (calibStart cam) <;> rfl

@[simp] theorem calibStart_thresholdValue (cam : CaptureCamera) :
    (calibStart cam).thresholdValue = 255 := by
  simp [calibStart]

@[simp] theorem calibStart_turnedOn (cam : CaptureCamera) :
    (calibStart cam).turnedOn = cam.turnedOn := by
  simp [calibStart]

/-- Whatever the library, a run of `CalibWithMarkers` that returns stores the value it
returns, and that value is at most 305; a camera that was turned on stays so. -/
theorem calib_result_le (lib : Lib) (fuel : Nat) (cam : CaptureCamera) (n : Nat)
    (cam' : CaptureCamera) (r : Nat) (h : CalibWithMarkers lib fuel cam n = some (cam', r)) :
    cam'.thresholdValue = r ∧ r ≤ 305 ∧ cam'.turnedOn = cam.turnedOn := by
  cases hon : cam.turnedOn with
  | true =>
    rw [CalibWithMarkers_on lib fuel cam n hon] at h
    cases hs : searchLoop lib n fuel (calibStart cam) with
    | none => rw [hs] at h; simp at h
    | some c =>
      rw [hs] at h
      simp only [Option.map_some', Option.some.injEq, Prod.mk.injEq] at h
      obtain ⟨h1, h2⟩ := h
      obtain ⟨i1, i2, i3, _⟩ := searchLoop_trace lib n fuel (calibStart cam) c hs
      rw [calibStart_thresholdValue] at i1 i2
      have i2 := i2 (by omega)
      have hg := (growLoop_trace lib (atUpper lib c).lines.length (c.thresholdValue - 10)
        (atUpper lib c)).2.1
      have hset := settle_thresholdValue lib c
      subst h1
      refine ⟨h2, ?_, ?_⟩
      · rw [← h2, hset]
        omega
      · rw [settle_turnedOn, i3, calibStart_turnedOn, hon]
  | false =>
    simp only [CalibWithMarkers, hon, Bool.false_eq_true, if_false,
      Option.some.injEq, Prod.mk.injEq] at h
    obtain ⟨h1, h2⟩ := h
    subst h1
    subst h2
    exact ⟨rfl, by decide, rfl⟩

/-- When the blob count is a function of the threshold on every camera the run can pass
through, the first loop on cameras follows the first loop on thresholds. -/
theorem searchLoop_sim (lib : Lib) (start : CaptureCamera) (count : Nat → Nat)
    (hobs : ∀ c, Evolves lib start c → (pipeline lib c).lines.length = count c.thresholdValue)
    (n : Nat) :
    ∀ (fuel : Nat) (cam : CaptureCamera), Evolves lib start cam →
      (searchLoop lib n fuel cam).map (fun c => c.thresholdValue)
          = searchValue count n fuel cam.thresholdValue
        ∧ ∀ c, searchLoop lib n fuel cam = some c → Evolves lib start c := by
  intro fuel
  induction fuel with
  | zero => intro cam _; simp [searchLoop, searchValue]
  | succ fuel ih =>
    intro cam hev
    rw [searchLoop, searchValue]
    have hcount := hobs cam hev
    have hpt : (pipeline lib cam).thresholdValue = cam.thresholdValue :=
      pipeline_thresholdValue lib cam
    by_cases h20 : cam.thresholdValue > 20
    · rw [if_pos h20, if_pos h20]
      dsimp only
      rw [hcount]
      by_cases h0 : count cam.thresholdValue = 0
      · rw [if_pos h0, if_pos h0]
        have := ih { pipeline lib cam with
          thresholdValue := (pipeline lib cam).thresholdValue - 1 }
          (Evolves.threshold _ _ (Evolves.pipeline _ hev))
        rw [show ({ pipeline lib cam with
          thresholdValue := (pipeline lib cam).thresholdValue - 1 } : CaptureCamera).thresholdValue
            = cam.thresholdValue - 1 from by rw [← hpt]] at this
        exact this
      · rw [if_neg h0, if_neg h0]
        by_cases hn : n = 0
        · rw [if_pos hn, if_pos hn]
          refine ⟨by simp [hpt], ?_⟩
          intro c hc
          rw [← Option.some.inj hc]
          exact Evolves.pipeline _ hev
        · rw [if_neg hn, if_neg hn]
          by_cases hc : count cam.thresholdValue = n
          · rw [if_pos hc, if_pos hc]
            refine ⟨by simp [hpt], ?_⟩
            intro c hc
            rw [← Option.some.inj hc]
            exact Evolves.pipeline _ hev
          · rw [if_neg hc, if_neg hc]
            have := ih (pipeline lib cam) (Evolves.pipeline _ hev)
            rw [hpt] at this
            exact this
    · rw [if_neg h20, if_neg h20]
      refine ⟨rfl, ?_⟩
      intro c hc
      rw [← Option.some.inj hc]
      exact hev

/-- Under the same condition the second loop on cameras follows the second loop on
thresholds. -/
theorem growLoop_sim (lib : Lib) (start : CaptureCamera) (count : Nat → Nat)
    (hobs : ∀ c, Evolves lib start c → (pipeline lib c).lines.length = count c.thresholdValue)
    (nLines : Nat) :
    ∀ (tv : Nat) (cam : CaptureCamera), Evolves lib start cam →
      (growLoop lib nLines tv cam).2 = growValue count nLines tv := by
  intro tv
  induction tv with
  | zero => intro cam _; rfl
  | succ tv ih =>
    intro cam hev
    rw [growLoop, growValue]
    have hcount : (pipeline lib { cam with thresholdValue := tv }).lines.length = count tv :=
      hobs _ (Evolves.threshold _ _ hev)
    rw [hcount]
    by_cases hgrow : nLines < count tv
    · rw [if_pos hgrow, if_pos hgrow]
    · rw [if_neg hgrow, if_neg hgrow]
      exact ih _ (Evolves.pipeline _ (Evolves.threshold _ _ hev))

/-- When the blob count is the function `count` of the threshold throughout the run, the
value `CalibWithMarkers` returns on a turned-on camera is the value of the loops on
thresholds. -/
theorem CalibWithMarkers_eq_calibValue (lib : Lib) (fuel : Nat) (cam : CaptureCamera) (n : Nat)
    (count : Nat → Nat) (hon : cam.turnedOn = true) (hobs : Observes lib cam count) :
    (CalibWithMarkers lib fuel cam n).map Prod.snd = calibValue count n fuel := by
  obtain ⟨hs1, hs2⟩ := searchLoop_sim lib (calibStart cam) count hobs n fuel (calibStart cam)
    Evolves.start
  rw [calibStart_thresholdValue] at hs1
  rw [CalibWithMarkers_on lib fuel cam n hon]
  unfold calibValue
  rw [← hs1]
  cases hsl : searchLoop lib n fuel (calibStart cam) with
  | none => rfl
  | some c =>
    have hev := hs2 c hsl
    have hup : (atUpper lib c).lines.length = count (c.thresholdValue - 10) :=
      hobs _ (Evolves.threshold _ _ hev)
    have hg := growLoop_sim lib (calibStart cam) count hobs (atUpper lib c).lines.length
      (c.thresholdValue - 10) (atUpper lib c) (Evolves.pipeline _ (Evolves.threshold _ _ hev))
    rw [hup] at hg
    simp only [Option.map_some', settle_thresholdValue, hup, hg]

/-- When the blob count and the painted frame are the function `look` of the frame and the
threshold, the first loop on cameras follows the first loop on frames and thresholds. -/
theorem searchLoop_scene (lib : Lib) (look : Mat → Nat → Nat × Mat)
    (hlook : ∀ c, (pipeline lib c).lines.length = (look c.frame c.thresholdValue).1
      ∧ (pipeline lib c).frame = (look c.frame c.thresholdValue).2) (n : Nat) :
    ∀ (fuel : Nat) (cam : CaptureCamera),
      (searchLoop lib n fuel cam).map (fun c => (c.frame, c.thresholdValue))
        = searchScene look n fuel cam.frame cam.thresholdValue := by
  intro fuel
  induction fuel with
  | zero => intro cam; simp [searchLoop, searchScene]
  | succ fuel ih =>
    intro cam
    rw [searchLoop, searchScene]
    obtain ⟨hl, hf⟩ := hlook cam
    have hpt : (pipeline lib cam).thresholdValue = cam.thresholdValue :=
      pipeline_thresholdValue lib cam
    by_cases h20 : cam.thresholdValue > 20
    · rw [if_pos h20, if_pos h20]
      dsimp only
      rw [hl]
      by_cases h0 : (look cam.frame cam.thresholdValue).1 = 0
      · rw [if_pos h0, if_pos h0]
        have := ih { pipeline lib cam with
          thresholdValue := (pipeline lib cam).thresholdValue - 1 }
        rw [show ({ pipeline lib cam with
          thresholdValue := (pipeline lib cam).thresholdValue - 1 } : CaptureCamera).thresholdValue
            = cam.thresholdValue - 1 from by rw [← hpt],
          show ({ pipeline lib cam with
          thresholdValue := (pipeline lib cam).thresholdValue - 1 } : CaptureCamera).frame
            = (look cam.frame cam.thresholdValue).2 from hf] at this
        exact this
      · rw [if_neg h0, if_neg h0]
        by_cases hn : n = 0
        · rw [if_pos hn, if_pos hn]
          simp [hpt, hf]
        · rw [if_neg hn, if_neg hn]
          by_cases hc : (look cam.frame cam.thresholdValue).1 = n
          · rw [if_pos hc, if_pos hc]
            simp [hpt, hf]
          · rw [if_neg hc, if_neg hc]
            have := ih (pipeline lib cam)
            rw [hpt, hf] at this
            exact this
    · rw [if_neg h20, if_neg h20]
      rfl

/-- Under the same condition the second loop on cameras follows the second loop on frames
and thresholds. -/
theorem growLoop_scene (lib : Lib) (look : Mat → Nat → Nat × Mat)
    (hlook : ∀ c, (pipeline lib c).lines.length = (look c.frame c.thresholdValue).1
      ∧ (pipeline lib c).frame = (look c.frame c.thresholdValue).2) (nLines : Nat) :
    ∀ (tv : Nat) (cam : CaptureCamera),
      (growLoop lib nLines tv cam).2 = growScene look nLines tv cam.frame := by
  intro tv
  induction tv with
  | zero => intro cam; rfl
  | succ tv ih =>
    intro cam
    rw [growLoop, growScene]
    obtain ⟨hl, hf⟩ := hlook { cam with thresholdValue := tv }
    dsimp only at hl hf ⊢
    rw [hl]
    by_cases hgrow : nLines < (look cam.frame tv).1
    · rw [if_pos hgrow, if_pos hgrow]
    · rw [if_neg hgrow, if_neg hgrow]
      rw [ih, hf]

/-- Under the same condition the value `CalibWithMarkers` returns on a turned-on camera is
the value of the loops on frames and thresholds, from the frame the warm-up leaves. -/
theorem CalibWithMarkers_eq_calibScene (lib : Lib) (look : Mat → Nat → Nat × Mat)
    (hlook : ∀ c, (pipeline lib c).lines.length = (look c.frame c.thresholdValue).1
      ∧ (pipeline lib c).frame = (look c.frame c.thresholdValue).2)
    (fuel : Nat) (cam : CaptureCamera) (n : Nat) (hon : cam.turnedOn = true) :
    (CalibWithMarkers lib fuel cam n).map Prod.snd
      = calibScene look n fuel (calibStart cam).frame := by
  have hs := searchLoop_scene lib look hlook n fuel (calibStart cam)
  rw [calibStart_thresholdValue] at hs
  rw [CalibWithMarkers_on lib fuel cam n hon]
  unfold calibScene
  rw [← hs]
  cases hsl : searchLoop lib n fuel (calibStart cam) with
  | none => rfl
  | some c =>
    obtain ⟨hl, hf⟩ := hlook { c with thresholdValue := c.thresholdValue - 10 }
    have hg := growLoop_scene lib look hlook (atUpper lib c).lines.length
      (c.thresholdValue - 10) (atUpper lib c)
    have hl' : (atUpper lib c).lines.length = (look c.frame (c.thresholdValue - 10)).1 := hl
    have hf' : (atUpper lib c).frame = (look c.frame (c.thresholdValue - 10)).2 := hf
    rw [hl', hf'] at hg
    simp only [Option.map_some', settle_thresholdValue, hl', hg]

end CaptureCamera

/-- The value `CalibWithMarkers` returns on a turned-on camera with the scripted library of
`count`. -/
theorem calib_countLib (count : Nat → Nat) (fuel : Nat) (cam : CaptureCamera) (n : Nat)
    (hon : cam.turnedOn = true) :
    (CaptureCamera.CalibWithMarkers (countLib count) fuel cam n).map Prod.snd
      = calibValue count n fuel :=
  CaptureCamera.CalibWithMarkers_eq_calibValue (countLib count) fuel cam n count hon
    (observes_countLib count cam)

/-- With the painting library the contours come from the frame and the threshold alone, and
the steps before the drawing leave the frame as it is. -/
theorem extract_paintLib (cam : CaptureCamera) :
    (CaptureCamera.extract paintLib
        (CaptureCamera.foreground paintLib (CaptureCamera.maskROI paintLib cam))).contours
      = pointContours (paintLib.threshold (paintLib.cvtColor cam.frame) cam.thresholdValue 255)
    ∧ (CaptureCamera.extract paintLib
        (CaptureCamera.foreground paintLib (CaptureCamera.maskROI paintLib cam))).frame
      = cam.frame := by
  unfold CaptureCamera.maskROI CaptureCamera.foreground CaptureCamera.extract
  split <;> split <;> exact ⟨rfl, rfl⟩

/-- A fold whose step keeps the accumulator returns it. -/
theorem foldl_keep {α β : Type} (l : List β) (a : α) : l.foldl (fun x _ => x) a = a := by
  induction l with
  | nil => rfl
  | cons b l ih => exact ih

/-- The pipeline with the painting library: the blob count and the painted frame are
`paintLook` of the frame and the threshold. -/
theorem pipeline_paintLib (cam : CaptureCamera) :
    (CaptureCamera.pipeline paintLib cam).lines.length
        = (paintLook cam.frame cam.thresholdValue).1
      ∧ (CaptureCamera.pipeline paintLib cam).frame
        = (paintLook cam.frame cam.thresholdValue).2 := by
  have hin : ∀ cs : List Contour, areaFilterLoop paintLib.contourArea 0 cs = cs := by
    intro cs
    apply areaFilterLoop_in_range
    intro c _
    simp [paintLib, outOfRange]
    norm_num
  constructor
  · rw [CaptureCamera.pipeline_lines_length, hin, (extract_paintLib cam).1]
    have : ∀ cs : List Contour, (cs.filterMap paintLib.centroid).length = cs.length := by
      intro cs
      induction cs with
      | nil => rfl
      | cons c cs ih => simp [paintLib] at ih ⊢
    rw [this]
    rfl
  · have : (CaptureCamera.pipeline paintLib cam).frame
        = paintRed (CaptureCamera.extract paintLib
            (CaptureCamera.foreground paintLib (CaptureCamera.maskROI paintLib cam))).frame
          (areaFilterLoop paintLib.contourArea 0 (CaptureCamera.extract paintLib
            (CaptureCamera.foreground paintLib (CaptureCamera.maskROI paintLib cam))).contours) := by
      simp only [CaptureCamera.pipeline, CaptureCamera.CreateLines, CaptureCamera.MiddleOfContours,
        CaptureCamera.UseFilter, CaptureCamera.filterAndDraw]
      exact foldl_keep _ _
    rw [this, hin, (extract_paintLib cam).1, (extract_paintLib cam).2]
    rfl

/-- The value `CalibWithMarkers` returns on a turned-on camera with the painting library. -/
theorem calib_paintLib (fuel : Nat) (cam : CaptureCamera) (n : Nat) (hon : cam.turnedOn = true) :
    (CaptureCamera.CalibWithMarkers paintLib fuel cam n).map Prod.snd
      = calibScene paintLook n fuel (CaptureCamera.calibStart cam).frame :=
  CaptureCamera.CalibWithMarkers_eq_calibScene paintLib paintLook pipeline_paintLib fuel cam n hon

theorem turnedOnCam_thresholdValue (cam : CaptureCamera) (b : Bool) (opened : Option (List Mat)) :
    (cam.turnedOnCam b opened).thresholdValue = cam.thresholdValue := by
  unfold CaptureCamera.turnedOnCam CaptureCamera.TurnOn CaptureCamera.TurnOff
  cases b <;> cases cam.turnedOn <;> cases opened <;> rfl

theorem lengthSq_rotateZ (lib : Lib) (v : Vec3) (a : ℚ)
    (hrot : lib.cos a * lib.cos a + lib.sin a * lib.sin a = 1) :
    lengthSq (rotateZ lib v a) = lengthSq v := by
  simp only [lengthSq, rotateZ]
  linear_combination (v.x * v.x + v.y * v.y) * hrot

theorem lengthSq_rotateX (lib : Lib) (v : Vec3) (a : ℚ)
    (hrot : lib.cos a * lib.cos a + lib.sin a * lib.sin a = 1) :
    lengthSq (rotateX lib v a) = lengthSq v := by
  simp only [lengthSq, rotateX]
  linear_combination (v.y * v.y + v.z * v.z) * hrot

theorem countLib_rotation (count : Nat → Nat) (a : ℚ) :
    (countLib count).cos a * (countLib count).cos a
      + (countLib count).sin a * (countLib count).sin a = 1 := by
  have h : (1 : ℚ) + a * a ≠ 0 := ne_of_gt (by nlinarith [mul_self_nonneg a])
  simp only [countLib]
  field_simp
  ring

theorem countLib_cos_zero (count : Nat → Nat) : (countLib count).cos 0 = 1 := by
  simp [countLib]

theorem countLib_sin_zero (count : Nat → Nat) : (countLib count).sin 0 = 0 := by
  simp [countLib]

theorem diagSq_blackFrame (w h : Nat) (hh : 0 < h) : diagSq (blackFrame w h) = w * w + h * h := by
  obtain ⟨k, rfl⟩ : ∃ k, h = k + 1 := ⟨h - 1, by omega⟩
  simp [diagSq, blackFrame, Mat.cols, Mat.rows, List.replicate_succ]

/-- A call of `CreateLines` with a nonzero cached `anglePerPixel` keeps it. -/
theorem CreateLines_keeps (lib : Lib) (cam : CaptureCamera) (h : cam.anglePerPixel ≠ 0) :
    (CaptureCamera.CreateLines lib cam).anglePerPixel = cam.anglePerPixel := by
  simp [CaptureCamera.CreateLines, h]

/-- A call of `CreateLines` with the cached `anglePerPixel` equal to 0 computes it. -/
theorem CreateLines_computes (lib : Lib) (cam : CaptureCamera) (h : cam.anglePerPixel = 0) :
    (CaptureCamera.CreateLines lib cam).anglePerPixel
      = cam.angleOfView / lib.sqrt (diagSq cam.frame) := by
  simp [CaptureCamera.CreateLines, h, diagSq]

theorem framesRun_keeps (lib : Lib) (frames : List Mat) :
    ∀ cam : CaptureCamera, cam.anglePerPixel ≠ 0 →
      (framesRun lib cam frames).anglePerPixel = cam.anglePerPixel
        ∧ (framesRun lib cam frames).angleOfView = cam.angleOfView := by
  induction frames with
  | nil => intro cam _; exact ⟨rfl, rfl⟩
  | cons f fs ih =>
    intro cam h
    have hk : (CaptureCamera.CreateLines lib { cam with frame := f }).anglePerPixel
        = cam.anglePerPixel := CreateLines_keeps lib { cam with frame := f } h
    have := ih (CaptureCamera.CreateLines lib { cam with frame := f }) (by rw [hk]; exact h)
    simp only [framesRun, List.foldl_cons] at this ⊢
    exact ⟨this.1.trans hk, this.2⟩


/-! ## The claims -/

/-- C1: the area filter does not remove every out-of-range contour. On two adjacent
contours of area 10 (both at most 20, so both to be removed) the loop erases the first,
increments the index past the second, which has moved into the freed slot, and stops: one
contour of area 10 is left in the output. -/
theorem areaFilter_skips_after_erase :
    areaFilterLoop (fun a : ℚ => a) 0 [10, 10] = [10] ∧ outOfRange 10 = true := by
  have e : outOfRange 10 = true := by decide
  exact ⟨by simp [areaFilterLoop, e], e⟩

/-- C2: `CalibWithMarkers` does not return when the pipeline yields a blob count that is
neither 0 nor the target. With the target 1 and two blobs at every threshold, on a turned-on
camera, the first loop stays at threshold 255: no amount of fuel lets the call return. -/
theorem CalibWithMarkers_mismatch_never_returns :
    ∀ fuel, CaptureCamera.CalibWithMarkers (countLib (fun _ => 2)) fuel sampleCamOn 1 = none := by
  intro fuel
  have h := calib_countLib (fun _ => 2) fuel sampleCamOn 1 rfl
  have hs : searchValue (fun _ => 2) 1 fuel 255 = none :=
    searchValue_stuck (fun _ => 2) 1 255 (by decide) (by decide) (by decide) (by decide) fuel
  simp only [calibValue, hs] at h
  cases hx : CaptureCamera.CalibWithMarkers (countLib (fun _ => 2)) fuel sampleCamOn 1 with
  | none => rfl
  | some p => rw [hx] at h; simp at h

set_option maxRecDepth 100000 in
/-- C3, as stated, fails: for the target 1 and the blob count `noisyCount` (0 above 200, 1 from
190 to 200, 5 below), which the run sees at every threshold, the search stops at the
qualifying threshold 200, and the call returns 236, where the blob count is 0. -/
theorem calib_result_misses_target :
    CaptureCamera.Observes (countLib noisyCount) sampleCamOn noisyCount
      ∧ (CaptureCamera.CalibWithMarkers (countLib noisyCount) 300 sampleCamOn 1).map Prod.snd
          = some 236
      ∧ searchValue noisyCount 1 300 255 = some 200
      ∧ Qualifies noisyCount 1 200
      ∧ noisyCount 236 = 0 := by
  refine ⟨observes_countLib noisyCount sampleCamOn, ?_, by decide,
    ⟨by decide, Or.inr (by decide)⟩, by decide⟩
  rw [calib_countLib noisyCount 300 sampleCamOn 1 rfl]
  decide

/-- C3, amended: when `CalibWithMarkers` returns `T` on a turned-on camera, whatever the
pipeline does to the frame, the blob count that the search last observed, at the threshold
`q` where it stopped, meets the target if `q` is above 20 (it is not 0, and it is the target
when the target is not 0). Let moreover the blob count be a function `count` of the
threshold throughout the run, that is, on every camera state the run passes through, the
frame as painted by the preview drawing included, the pipeline run at threshold `t` leaves
`count t` lines. Then `q` is where the search on `count` stops and, if above 20, qualifies;
the returned `T` has a matching blob count (equal to the target when it is not 0, positive
when it is 0) when in addition the blob count does not increase with the threshold, the blob
count at `q - 10` still equals a target other than 0, and `T` is at most `q - 10`. -/
theorem calib_target_match (lib : Lib) (fuel : Nat) (cam : CaptureCamera) (n T : Nat)
    (hon : cam.turnedOn = true)
    (h : (CaptureCamera.CalibWithMarkers lib fuel cam n).map Prod.snd = some T) :
    ∃ c, CaptureCamera.searchLoop lib n fuel (CaptureCamera.calibStart cam) = some c
      ∧ (20 < c.thresholdValue → Meets n c.lines.length)
      ∧ ∀ count, CaptureCamera.Observes lib cam count →
          searchValue count n fuel 255 = some c.thresholdValue
          ∧ (20 < c.thresholdValue → Qualifies count n c.thresholdValue)
          ∧ (20 < c.thresholdValue →
              (∀ a b, a ≤ b → count b ≤ count a) →
              (n ≠ 0 → count (c.thresholdValue - 10) = n) →
              T ≤ c.thresholdValue - 10 →
              (n ≠ 0 → count T = n) ∧ (n = 0 → 0 < count T)) := by
  have h' := h
  rw [CaptureCamera.CalibWithMarkers_on lib fuel cam n hon] at h'
  cases hs : CaptureCamera.searchLoop lib n fuel (CaptureCamera.calibStart cam) with
  | none => rw [hs] at h'; simp at h'
  | some c =>
    obtain ⟨_, _, _, _, i5, _⟩ :=
      CaptureCamera.searchLoop_trace lib n fuel (CaptureCamera.calibStart cam) c hs
    refine ⟨c, rfl, fun h20 => (i5 h20).2, ?_⟩
    intro count hobs
    rw [CaptureCamera.CalibWithMarkers_eq_calibValue lib fuel cam n count hon hobs] at h
    obtain ⟨q, hq, hr⟩ := calibValue_some _ n fuel T h
    have hs1 := (CaptureCamera.searchLoop_sim lib (CaptureCamera.calibStart cam) count hobs n fuel
      (CaptureCamera.calibStart cam) CaptureCamera.Evolves.start).1
    rw [hs, CaptureCamera.calibStart_thresholdValue, hq] at hs1
    simp only [Option.map_some', Option.some.injEq] at hs1
    subst hs1
    obtain ⟨_, _, _, hqual⟩ := searchValue_spec _ n fuel 255 _ hq
    refine ⟨hq, hqual, ?_⟩
    intro h20 hanti hup hT
    have hTq : count (c.thresholdValue - 10) ≤ count T := hanti T (c.thresholdValue - 10) hT
    constructor
    · intro hn
      have hle : count T ≤ count (c.thresholdValue - 10) := by
        by_cases hx : T = c.thresholdValue - 10
        · rw [hx]
        · rcases growValue_spec count (count (c.thresholdValue - 10)) (c.thresholdValue - 10)
            with ⟨h1, _, h3⟩ | ⟨h1, h3⟩
          · exact h3 T (by omega) (by omega)
          · exact h3 T (by omega)
      rw [← hup hn]
      exact le_antisymm hle hTq
    · intro hn
      obtain ⟨hq0, _⟩ := hqual h20
      have := hanti (c.thresholdValue - 10) c.thresholdValue (Nat.sub_le c.thresholdValue 10)
      omega

set_option maxRecDepth 100000 in
/-- Witness of C3 amended: one marker visible up to threshold 200, target 1; the call
returns 23, where one blob is seen. -/
theorem calib_target_match_witness :
    sampleCamOn.turnedOn = true
      ∧ (CaptureCamera.CalibWithMarkers (countLib cleanCount) 300 sampleCamOn 1).map Prod.snd
          = some 23
      ∧ CaptureCamera.Observes (countLib cleanCount) sampleCamOn cleanCount
      ∧ ∃ c, CaptureCamera.searchLoop (countLib cleanCount) 1 300
              (CaptureCamera.calibStart sampleCamOn) = some c
          ∧ (20 < c.thresholdValue → Meets 1 c.lines.length)
          ∧ ∀ count, CaptureCamera.Observes (countLib cleanCount) sampleCamOn count →
              searchValue count 1 300 255 = some c.thresholdValue
              ∧ (20 < c.thresholdValue → Qualifies count 1 c.thresholdValue)
              ∧ (20 < c.thresholdValue →
                  (∀ a b, a ≤ b → count b ≤ count a) →
                  ((1 : Nat) ≠ 0 → count (c.thresholdValue - 10) = 1) →
                  23 ≤ c.thresholdValue - 10 →
                  ((1 : Nat) ≠ 0 → count 23 = 1) ∧ ((1 : Nat) = 0 → 0 < count 23)) := by
  have hret : (CaptureCamera.CalibWithMarkers (countLib cleanCount) 300 sampleCamOn 1).map
      Prod.snd = some 23 := by
    rw [calib_countLib cleanCount 300 sampleCamOn 1 rfl]
    decide
  exact ⟨rfl, hret, observes_countLib cleanCount sampleCamOn,
    calib_target_match (countLib cleanCount) 300 sampleCamOn 1 23 rfl hret⟩

/-- C4: when `CalibWithMarkers` returns `r` on a turned-on camera, `r` is
`lower + (upper + lower) / 8` in integer division, with `upper = q - 10`, where, in terms
of the blob counts the run observes (each on the frame as the rounds before have painted
it): `q`, between 20 and 255, is the threshold of the camera `c` on which the search loop
stops; the search has scanned every threshold from 255 down to `q` (down to 21 when `q` is
20); no observation above `q` meets the target, and either `q` is above 20 and the search
stopped on an observation at `q` that meets the target, or `q` is 20; the second loop has
scanned every threshold from `upper - 1` down to `lower`; every observation above `lower`
is at most the count observed at `upper`; and `lower` is the threshold, below `upper`, of
an observation greater than the count observed at `upper`, or 0 when there is none. -/
theorem calib_returns_formula (lib : Lib) (fuel : Nat) (cam : CaptureCamera) (n r : Nat)
    (hon : cam.turnedOn = true)
    (h : (CaptureCamera.CalibWithMarkers lib fuel cam n).map Prod.snd = some r) :
    ∃ (c : CaptureCamera) (lower : Nat),
      CaptureCamera.searchLoop lib n fuel (CaptureCamera.calibStart cam) = some c
      ∧ (20 ≤ c.thresholdValue ∧ c.thresholdValue ≤ 255)
      ∧ (∀ u, 20 < u → c.thresholdValue ≤ u → u ≤ 255 →
          ∃ k, (u, k) ∈ CaptureCamera.searchTrace lib n fuel (CaptureCamera.calibStart cam))
      ∧ (∀ p ∈ CaptureCamera.searchTrace lib n fuel (CaptureCamera.calibStart cam),
          c.thresholdValue ≤ p.1 ∧ p.1 ≤ 255 ∧ (Meets n p.2 → p.1 = c.thresholdValue))
      ∧ ((20 < c.thresholdValue
            ∧ (c.thresholdValue, c.lines.length)
                ∈ CaptureCamera.searchTrace lib n fuel (CaptureCamera.calibStart cam)
            ∧ Meets n c.lines.length)
          ∨ c.thresholdValue = 20)
      ∧ (∀ u, lower ≤ u → u < c.thresholdValue - 10 →
          ∃ k, (u, k) ∈ CaptureCamera.growTrace lib (CaptureCamera.atUpper lib c).lines.length
            (c.thresholdValue - 10) (CaptureCamera.atUpper lib c))
      ∧ (∀ p ∈ CaptureCamera.growTrace lib (CaptureCamera.atUpper lib c).lines.length
            (c.thresholdValue - 10) (CaptureCamera.atUpper lib c),
          lower ≤ p.1 ∧ p.1 < c.thresholdValue - 10
            ∧ (lower < p.1 → p.2 ≤ (CaptureCamera.atUpper lib c).lines.length))
      ∧ ((lower < c.thresholdValue - 10
            ∧ ∃ k, (lower, k) ∈ CaptureCamera.growTrace lib
                  (CaptureCamera.atUpper lib c).lines.length (c.thresholdValue - 10)
                  (CaptureCamera.atUpper lib c)
                ∧ (CaptureCamera.atUpper lib c).lines.length < k)
          ∨ (lower = 0
            ∧ ∀ p ∈ CaptureCamera.growTrace lib (CaptureCamera.atUpper lib c).lines.length
                  (c.thresholdValue - 10) (CaptureCamera.atUpper lib c),
                p.2 ≤ (CaptureCamera.atUpper lib c).lines.length))
      ∧ r = lower + (c.thresholdValue - 10 + lower) / 8 := by
  rw [CaptureCamera.CalibWithMarkers_on lib fuel cam n hon] at h
  cases hs : CaptureCamera.searchLoop lib n fuel (CaptureCamera.calibStart cam) with
  | none => rw [hs] at h; simp at h
  | some c =>
    rw [hs] at h
    simp only [Option.map_some', Option.some.injEq] at h
    obtain ⟨i1, i2, _, i4, i5, i6⟩ :=
      CaptureCamera.searchLoop_trace lib n fuel (CaptureCamera.calibStart cam) c hs
    rw [CaptureCamera.calibStart_thresholdValue] at i1 i2 i4 i6
    have i2 := i2 (by omega)
    obtain ⟨_, _, g3, g4, g5⟩ :=
      CaptureCamera.growLoop_trace lib (CaptureCamera.atUpper lib c).lines.length
        (c.thresholdValue - 10) (CaptureCamera.atUpper lib c)
    refine ⟨c, _, rfl, ⟨i2, i1⟩, i6, ?_, ?_, g5, g3, g4, ?_⟩
    · intro p hp
      obtain ⟨j1, j2, _, j4⟩ := i4 p hp
      exact ⟨j1, j2, j4⟩
    · by_cases h20 : 20 < c.thresholdValue
      · exact Or.inl ⟨h20, i5 h20⟩
      · exact Or.inr (by omega)
    · rw [← h, CaptureCamera.settle_thresholdValue]

set_option maxRecDepth 1000000 in
/-- Witness of C4: one marker of grey level 200 on a pipeline that paints what it finds, target
1. The search stops at 199 and paints the marker red, grey level 76; at the upper bound 189
the painted frame shows no blob; the second loop first sees more, one blob, at the lower
bound 75; the call returns 75 + (189 + 75) / 8 = 108. The blob counts of the frame as
captured, one blob at every threshold below 200, would give 0 + (189 + 0) / 8 = 23. -/
theorem calib_returns_formula_witness :
    markerCam.turnedOn = true
      ∧ (CaptureCamera.CalibWithMarkers paintLib 300 markerCam 1).map Prod.snd
          = some 108
      ∧ calibValue (fun t => (paintLook markerFrame t).1) 1 300 = some 23
      ∧ ∃ (c : CaptureCamera) (lower : Nat),
          CaptureCamera.searchLoop paintLib 1 300
              (CaptureCamera.calibStart markerCam) = some c
          ∧ (20 ≤ c.thresholdValue ∧ c.thresholdValue ≤ 255)
          ∧ (∀ u, 20 < u → c.thresholdValue ≤ u → u ≤ 255 →
              ∃ k, (u, k) ∈ CaptureCamera.searchTrace paintLib 1 300
                (CaptureCamera.calibStart markerCam))
          ∧ (∀ p ∈ CaptureCamera.searchTrace paintLib 1 300
                (CaptureCamera.calibStart markerCam),
              c.thresholdValue ≤ p.1 ∧ p.1 ≤ 255 ∧ (Meets 1 p.2 → p.1 = c.thresholdValue))
          ∧ ((20 < c.thresholdValue
                ∧ (c.thresholdValue, c.lines.length)
                    ∈ CaptureCamera.searchTrace paintLib 1 300
                        (CaptureCamera.calibStart markerCam)
                ∧ Meets 1 c.lines.length)
              ∨ c.thresholdValue = 20)
          ∧ (∀ u, lower ≤ u → u < c.thresholdValue - 10 →
              ∃ k, (u, k) ∈ CaptureCamera.growTrace paintLib
                (CaptureCamera.atUpper paintLib c).lines.length
                (c.thresholdValue - 10) (CaptureCamera.atUpper paintLib c))
          ∧ (∀ p ∈ CaptureCamera.growTrace paintLib
                (CaptureCamera.atUpper paintLib c).lines.length
                (c.thresholdValue - 10) (CaptureCamera.atUpper paintLib c),
              lower ≤ p.1 ∧ p.1 < c.thresholdValue - 10
                ∧ (lower < p.1
                    → p.2 ≤ (CaptureCamera.atUpper paintLib c).lines.length))
          ∧ ((lower < c.thresholdValue - 10
                ∧ ∃ k, (lower, k) ∈ CaptureCamera.growTrace paintLib
                      (CaptureCamera.atUpper paintLib c).lines.length
                      (c.thresholdValue - 10) (CaptureCamera.atUpper paintLib c)
                    ∧ (CaptureCamera.atUpper paintLib c).lines.length < k)
              ∨ (lower = 0
                ∧ ∀ p ∈ CaptureCamera.growTrace paintLib
                      (CaptureCamera.atUpper paintLib c).lines.length
                      (c.thresholdValue - 10) (CaptureCamera.atUpper paintLib c),
                    p.2 ≤ (CaptureCamera.atUpper paintLib c).lines.length))
          ∧ 108 = lower + (c.thresholdValue - 10 + lower) / 8 := by
  have hret : (CaptureCamera.CalibWithMarkers paintLib 300 markerCam 1).map Prod.snd
      = some 108 := by
    rw [calib_paintLib 300 markerCam 1 rfl]
    decide
  exact ⟨rfl, hret, by decide, calib_returns_formula paintLib 300 markerCam 1 108 rfl hret⟩

/-- C5, as stated, fails: on a camera that is not turned on and has threshold 100,
`CalibWithMarkers` leaves the threshold at 255 and returns 255. -/
theorem calib_off_resets_threshold :
    (sampleCam.setThreshold 100).turnedOn = false
      ∧ (sampleCam.setThreshold 100).thresholdValue = 100
      ∧ (CaptureCamera.CalibWithMarkers (countLib noBlobs) 0 (sampleCam.setThreshold 100) 3).map
          (fun p => (p.1.thresholdValue, p.2)) = some (255, 255) := by
  exact ⟨rfl, rfl, rfl⟩

/-- C5, amended: on a camera that is not turned on, `CalibWithMarkers` sets the threshold to
255, returns 255 and changes no other member, for every target count; `CalibNoMarkers`
changes no member at all. -/
theorem calib_off_spec (lib : Lib) (fuel : Nat) (cam : CaptureCamera) (n : Nat)
    (hoff : cam.turnedOn = false) :
    CaptureCamera.CalibWithMarkers lib fuel cam n = some ({ cam with thresholdValue := 255 }, 255)
      ∧ CaptureCamera.CalibNoMarkers lib cam = cam := by
  simp [CaptureCamera.CalibWithMarkers, CaptureCamera.CalibNoMarkers, hoff]

/-- Witness of C5 amended: the sample camera, off, with threshold 100. -/
theorem calib_off_spec_witness :
    (sampleCam.setThreshold 100).turnedOn = false
      ∧ CaptureCamera.CalibWithMarkers (countLib noBlobs) 0 (sampleCam.setThreshold 100) 3
          = some ({ sampleCam.setThreshold 100 with thresholdValue := 255 }, 255)
      ∧ CaptureCamera.CalibNoMarkers (countLib noBlobs) (sampleCam.setThreshold 100)
          = sampleCam.setThreshold 100 :=
  ⟨rfl, calib_off_spec (countLib noBlobs) 0 (sampleCam.setThreshold 100) 3 rfl⟩

set_option maxRecDepth 100000 in
/-- C6, as stated, fails: on a turned-on camera whose pipeline yields no blob at any
threshold, `CalibWithMarkers` returns 1, not 0: the search stops at 20, the upper bound is
10, the lower bound 0, and 0 + (10 + 0) / 8 = 1. -/
theorem calib_no_blobs_returns_one :
    CaptureCamera.Observes (countLib noBlobs) sampleCamOn noBlobs
      ∧ (CaptureCamera.CalibWithMarkers (countLib noBlobs) 236 sampleCamOn 3).map Prod.snd
          = some 1 := by
  constructor
  · exact observes_countLib noBlobs sampleCamOn
  · rw [calib_countLib noBlobs 236 sampleCamOn 3 rfl]
    decide

/-- C6, amended: on a turned-on camera whose pipeline yields no blob at any threshold,
whenever the run evaluates it, `CalibWithMarkers` returns (236 rounds of the first loop
suffice) with the threshold, and the returned value, equal to 1. -/
theorem calib_no_blobs (lib : Lib) (fuel : Nat) (cam : CaptureCamera) (n : Nat)
    (hon : cam.turnedOn = true) (hzero : CaptureCamera.Observes lib cam noBlobs)
    (hfuel : 236 ≤ fuel) :
    ∃ cam', CaptureCamera.CalibWithMarkers lib fuel cam n = some (cam', 1)
      ∧ cam'.thresholdValue = 1 := by
  have hmap := CaptureCamera.CalibWithMarkers_eq_calibValue lib fuel cam n noBlobs hon hzero
  have hs : searchValue noBlobs n fuel 255 = some 20 := by
    obtain ⟨d, rfl⟩ : ∃ d, fuel = d + 1 := ⟨fuel - 1, by omega⟩
    exact searchValue_zero _ n (fun _ => rfl) d 255 (by omega) (by omega)
  have hv : calibValue noBlobs n fuel = some 1 := by
    simp only [calibValue, hs, growValue_zero noBlobs _ (fun _ => rfl)]
  rw [hv] at hmap
  obtain ⟨cam', hc⟩ := map_snd_eq_some _ _ hmap
  exact ⟨cam', hc, (CaptureCamera.calib_result_le lib fuel cam n cam' 1 hc).1⟩

/-- Witness of C6 amended: the sample camera, turned on, with no blob at any threshold. -/
theorem calib_no_blobs_witness :
    sampleCamOn.turnedOn = true
      ∧ CaptureCamera.Observes (countLib noBlobs) sampleCamOn noBlobs
      ∧ ∃ cam', CaptureCamera.CalibWithMarkers (countLib noBlobs) 236 sampleCamOn 3
            = some (cam', 1)
          ∧ cam'.thresholdValue = 1 :=
  ⟨rfl, observes_countLib noBlobs sampleCamOn,
    calib_no_blobs (countLib noBlobs) 236 sampleCamOn 3 rfl
      (observes_countLib noBlobs sampleCamOn) (le_refl 236)⟩

set_option maxRecDepth 100000 in
/-- C7, as stated, fails: a newly constructed camera, turned on, on which `CalibWithMarkers`
runs with target 0 and the blob count `brightCount` (1 from threshold 245 up, 2 below), ends
with threshold 305 and returns 305: the search stops at 255, the upper bound is 245, the lower
bound 244, and 244 + (245 + 244) / 8 = 305. -/
theorem threshold_reaches_305 :
    sampleCam.thresholdValue = 255
      ∧ (CaptureCamera.CalibWithMarkers (countLib brightCount) 1
            (sampleCam.turnedOnCam true (some [])) 0).map
          (fun p => (p.1.thresholdValue, p.2)) = some (305, 305) := by
  refine ⟨rfl, ?_⟩
  have hmap := calib_countLib brightCount 1 (sampleCam.turnedOnCam true (some [])) 0 rfl
  have hv : calibValue brightCount 0 1 = some 305 := by decide
  rw [hv] at hmap
  obtain ⟨cam', hc⟩ := map_snd_eq_some _ _ hmap
  rw [hc]
  simp only [Option.map_some', (CaptureCamera.calib_result_le _ _ _ _ _ _ hc).1]

/-- C7, amended: every camera state reached from a newly constructed camera through
`setThreshold` and `thresholdCam` with arguments in 0..255, `turnedOnCam`, and runs of
`CalibWithMarkers` (any target count, any pipeline) has its threshold between 0 and 305, and
every value that `CalibWithMarkers` returns from such a state, and the threshold it stores,
is between 0 and 305. -/
theorem threshold_le_305 (cam : CaptureCamera) (h : Reachable cam) :
    cam.thresholdValue ≤ 305
      ∧ ∀ lib fuel n cam' r, CaptureCamera.CalibWithMarkers lib fuel cam n = some (cam', r) →
          r ≤ 305 ∧ cam'.thresholdValue ≤ 305 := by
  constructor
  · induction h with
    | ctor => show (255 : Nat) ≤ 305; decide
    | setThreshold cam T _ hT _ => show T ≤ 305; omega
    | thresholdCam cam T _ hT _ => show T ≤ 305; omega
    | turnedOnCam cam b opened _ ih => rw [turnedOnCam_thresholdValue]; exact ih
    | CalibWithMarkers lib fuel cam n cam' r _ hc _ =>
      obtain ⟨h1, h2, _⟩ := CaptureCamera.calib_result_le lib fuel cam n cam' r hc
      omega
  · intro lib fuel n cam' r hc
    obtain ⟨h1, h2, _⟩ := CaptureCamera.calib_result_le lib fuel cam n cam' r hc
    exact ⟨h2, by omega⟩

/-- Witness of C7 amended: the sample camera, constructed and turned on. -/
theorem threshold_le_305_witness :
    Reachable (sampleCam.turnedOnCam true (some []))
      ∧ (sampleCam.turnedOnCam true (some [])).thresholdValue ≤ 305
      ∧ ∀ lib fuel n cam' r,
          CaptureCamera.CalibWithMarkers lib fuel (sampleCam.turnedOnCam true (some [])) n
            = some (cam', r) →
          r ≤ 305 ∧ cam'.thresholdValue ≤ 305 :=
  have hr : Reachable (sampleCam.turnedOnCam true (some [])) :=
    Reachable.turnedOnCam sampleCam true (some [])
      (Reachable.ctor "Camera" ⟨4, 0, 0⟩ ⟨0, 0, 0⟩ ⟨4, 0, 0⟩ "Cam1" 0 60 false)
  ⟨hr, threshold_le_305 (sampleCam.turnedOnCam true (some [])) hr⟩

/-- C8, as stated, fails: for the camera at the origin of a room of dimensions (4, 0, 0),
away from the room centre (2, 0, 0), `ComputeDirVector` gives the direction (2, 0, 0), of
squared length 4, and the ray that `CreateLines` makes for a blob at the frame centre has
that direction. -/
theorem dirVector_not_unit :
    sampleCam.position ≠ ⟨sampleCam.roomDimensions.x / 2, sampleCam.roomDimensions.y / 2,
        sampleCam.roomDimensions.z / 2⟩
      ∧ sampleCam.ComputeDirVector.directionVectorToMiddle = ⟨2, 0, 0⟩
      ∧ (CaptureCamera.CreateLines (countLib noBlobs) centredCam).lines
          = [⟨⟨0, 0, 0⟩, ⟨2, 0, 0⟩⟩]
      ∧ lengthSq ⟨2, 0, 0⟩ = 4 := by
  refine ⟨?_, ?_, ?_, ?_⟩
  · simp [sampleCam, CaptureCamera.ctor, CaptureCamera.ComputeDirVector]
    norm_num
  · simp [sampleCam, CaptureCamera.ctor, CaptureCamera.ComputeDirVector]
    norm_num
  · simp [CaptureCamera.CreateLines, CaptureCamera.lineOf, centredCam, sampleCam,
      CaptureCamera.ctor, CaptureCamera.ComputeDirVector, rotateZ, rotateX, countLib,
      blackFrame, Mat.cols, Mat.rows, List.replicate]
    norm_num
  · simp [lengthSq]
    norm_num

/-- C8, amended: `ComputeDirVector` sets the direction to the room centre to the difference
`roomDimensions / 2 - position`, not normalised: its squared length is the squared distance
from the camera to the room centre. `CreateLines` does not normalise either: in exact
arithmetic, where `cos^2 + sin^2 = 1`, the direction of every ray it makes has the same
squared length as the direction to the room centre. -/
theorem dirVector_length (lib : Lib) (cam : CaptureCamera)
    (hrot : ∀ a, lib.cos a * lib.cos a + lib.sin a * lib.sin a = 1) :
    cam.ComputeDirVector.directionVectorToMiddle
        = ⟨cam.roomDimensions.x / 2 - cam.position.x, cam.roomDimensions.y / 2 - cam.position.y,
            cam.roomDimensions.z / 2 - cam.position.z⟩
      ∧ lengthSq cam.ComputeDirVector.directionVectorToMiddle
          = (cam.roomDimensions.x / 2 - cam.position.x) ^ 2
            + (cam.roomDimensions.y / 2 - cam.position.y) ^ 2
            + (cam.roomDimensions.z / 2 - cam.position.z) ^ 2
      ∧ ∀ l ∈ (CaptureCamera.CreateLines lib cam).lines,
          lengthSq l.direction = lengthSq cam.directionVectorToMiddle := by
  refine ⟨rfl, ?_, ?_⟩
  · simp only [CaptureCamera.ComputeDirVector, lengthSq]
    ring
  · intro l hl
    simp only [CaptureCamera.CreateLines, List.mem_map] at hl
    obtain ⟨c, _, rfl⟩ := hl
    simp only [CaptureCamera.lineOf]
    rw [lengthSq_rotateX lib _ _ (hrot _), lengthSq_rotateZ lib _ _ (hrot _)]

/-- Witness of C8 amended: the sample camera with one blob centre. -/
theorem dirVector_length_witness :
    (∀ a, (countLib noBlobs).cos a * (countLib noBlobs).cos a
        + (countLib noBlobs).sin a * (countLib noBlobs).sin a = 1)
      ∧ centredCam.ComputeDirVector.directionVectorToMiddle
          = ⟨centredCam.roomDimensions.x / 2 - centredCam.position.x,
              centredCam.roomDimensions.y / 2 - centredCam.position.y,
              centredCam.roomDimensions.z / 2 - centredCam.position.z⟩
      ∧ lengthSq centredCam.ComputeDirVector.directionVectorToMiddle
          = (centredCam.roomDimensions.x / 2 - centredCam.position.x) ^ 2
            + (centredCam.roomDimensions.y / 2 - centredCam.position.y) ^ 2
            + (centredCam.roomDimensions.z / 2 - centredCam.position.z) ^ 2
      ∧ ∀ l ∈ (CaptureCamera.CreateLines (countLib noBlobs) centredCam).lines,
          lengthSq l.direction = lengthSq centredCam.directionVectorToMiddle :=
  ⟨countLib_rotation noBlobs,
    dirVector_length (countLib noBlobs) centredCam (countLib_rotation noBlobs)⟩

/-- C9, as stated, fails: on a frame of 3 by 4 pixels a blob centre exactly at the frame
centre (3/2, 4/2) is half a pixel off the point (3/2, 4/2) = (1, 2) in integer division from
which `CreateLines` measures, so the ray is rotated: its direction is (-70/37, -24/37, 0),
not the direction (2, 0, 0) to the room centre. -/
theorem centre_ray_rotated_on_odd_width :
    Mat.cols oddCam.frame = 3 ∧ Mat.rows oddCam.frame = 4
      ∧ oddCam.centerOfContour = [⟨3 / 2, 4 / 2⟩]
      ∧ oddCam.directionVectorToMiddle = ⟨2, 0, 0⟩
      ∧ (CaptureCamera.CreateLines (countLib noBlobs) oddCam).lines
          = [⟨⟨0, 0, 0⟩, ⟨-70 / 37, -24 / 37, 0⟩⟩] := by
  have s5 : Nat.sqrt 25 = 5 := Nat.sqrt_eq 5
  refine ⟨by decide, by decide, ?_, ?_, ?_⟩
  · simp [oddCam]
    norm_num
  · simp [oddCam, sampleCam, CaptureCamera.ctor, CaptureCamera.ComputeDirVector]
    norm_num
  · simp [CaptureCamera.CreateLines, CaptureCamera.lineOf, oddCam, sampleCam,
      CaptureCamera.ctor, CaptureCamera.ComputeDirVector, rotateZ, rotateX, countLib,
      blackFrame, Mat.cols, Mat.rows, List.replicate, s5]
    norm_num

/-- C9, amended: for every camera and every frame, a blob centre at the point
`(frame.cols/2, frame.rows/2)`, the halves taken in integer division as `CreateLines` takes
them, makes `CreateLines` produce, at the same index, the ray whose origin is the camera
position and whose direction is the direction to the room centre: both rotations are by the
angle 0, whose cosine is 1 and sine 0. For a frame of even width and height that point is
the exact frame centre `(w/2, h/2)`. -/
theorem centre_ray_direction (lib : Lib) (cam : CaptureCamera) (i : Nat)
    (hcos : lib.cos 0 = 1) (hsin : lib.sin 0 = 0)
    (hc : cam.centerOfContour[i]?
        = some ⟨((Mat.cols cam.frame / 2 : Nat) : ℚ), ((Mat.rows cam.frame / 2 : Nat) : ℚ)⟩) :
    (CaptureCamera.CreateLines lib cam).lines[i]?
        = some ⟨cam.position, cam.directionVectorToMiddle⟩
      ∧ (2 ∣ Mat.cols cam.frame → 2 ∣ Mat.rows cam.frame →
          cam.centerOfContour[i]?
            = some ⟨(Mat.cols cam.frame : ℚ) / 2, (Mat.rows cam.frame : ℚ) / 2⟩) := by
  constructor
  · simp [CaptureCamera.CreateLines, List.getElem?_map, hc, CaptureCamera.lineOf, rotateZ,
      rotateX, hcos, hsin]
  · intro hw hh
    rw [hc, Nat.cast_div hw (by norm_num), Nat.cast_div hh (by norm_num)]
    norm_num

/-- Witness of C9 amended: the sample camera with a frame of 4 by 4 pixels and a blob centre
at (2, 2). -/
theorem centre_ray_direction_witness :
    (countLib noBlobs).cos 0 = 1 ∧ (countLib noBlobs).sin 0 = 0
      ∧ centredCam.centerOfContour[0]?
          = some ⟨((Mat.cols centredCam.frame / 2 : Nat) : ℚ),
              ((Mat.rows centredCam.frame / 2 : Nat) : ℚ)⟩
      ∧ (CaptureCamera.CreateLines (countLib noBlobs) centredCam).lines[0]?
          = some ⟨centredCam.position, centredCam.directionVectorToMiddle⟩
      ∧ (2 ∣ Mat.cols centredCam.frame → 2 ∣ Mat.rows centredCam.frame →
          centredCam.centerOfContour[0]?
            = some ⟨(Mat.cols centredCam.frame : ℚ) / 2, (Mat.rows centredCam.frame : ℚ) / 2⟩) :=
  have hc : centredCam.centerOfContour[0]?
      = some ⟨((Mat.cols centredCam.frame / 2 : Nat) : ℚ),
          ((Mat.rows centredCam.frame / 2 : Nat) : ℚ)⟩ := by
    simp [centredCam, blackFrame, Mat.cols, Mat.rows, List.replicate]
  ⟨countLib_cos_zero noBlobs, countLib_sin_zero noBlobs, hc,
    centre_ray_direction (countLib noBlobs) centredCam 0 (countLib_cos_zero noBlobs)
      (countLib_sin_zero noBlobs) hc⟩

/-- C10, as stated, fails: with field of view 60, a first call of `CreateLines` on a frame of
3 by 4 pixels computes `anglePerPixel` = 60 / 5 = 12; a later call on a frame of 6 by 8 pixels
still uses 12, not 60 / 10 = 6. -/
theorem anglePerPixel_stale_after_resize :
    (framesRun (countLib noBlobs) sampleCam [blackFrame 3 4]).anglePerPixel = 12
      ∧ (framesRun (countLib noBlobs) sampleCam [blackFrame 3 4, blackFrame 6 8]).anglePerPixel
          = 12
      ∧ sampleCam.angleOfView / (countLib noBlobs).sqrt (diagSq (blackFrame 6 8)) = 6 := by
  have s5 : Nat.sqrt 25 = 5 := Nat.sqrt_eq 5
  have s10 : Nat.sqrt 100 = 10 := Nat.sqrt_eq 10
  have h1 : (framesRun (countLib noBlobs) sampleCam [blackFrame 3 4]).anglePerPixel = 12 := by
    show (CaptureCamera.CreateLines _ _).anglePerPixel = 12
    rw [CreateLines_computes _ _ rfl, diagSq_blackFrame 3 4 (by decide)]
    show (60 : ℚ) / ((Nat.sqrt 25 : Nat) : ℚ) = 12
    rw [s5]
    norm_num
  refine ⟨h1, ?_, ?_⟩
  · show (CaptureCamera.CreateLines _
        { framesRun (countLib noBlobs) sampleCam [blackFrame 3 4] with
          frame := blackFrame 6 8 }).anglePerPixel = 12
    rw [CreateLines_keeps]
    · exact h1
    · show (framesRun (countLib noBlobs) sampleCam [blackFrame 3 4]).anglePerPixel ≠ 0
      rw [h1]
      norm_num
  · rw [diagSq_blackFrame 6 8 (by decide)]
    show (60 : ℚ) / ((Nat.sqrt 100 : Nat) : ℚ) = 6
    rw [s10]
    norm_num

/-- C10, amended: `CreateLines` computes `anglePerPixel` only when the cached value is 0.
For a camera with a cache of 0, a field of view above 0 and a first frame whose diagonal has
a square root above 0, the first call computes `fov / sqrt(width^2 + height^2)` of that frame,
and every later call keeps this value whatever the width and height of its frame, the same or
not; after `setAngle` the next call computes the value anew from the new field of view and
the frame of that call. -/
theorem anglePerPixel_cache (lib : Lib) (cam : CaptureCamera) (frame0 : Mat) (frames : List Mat)
    (h0 : cam.anglePerPixel = 0) (hfov : 0 < cam.angleOfView)
    (hs : 0 < lib.sqrt (diagSq frame0)) :
    (framesRun lib cam (frame0 :: frames)).anglePerPixel
        = cam.angleOfView / lib.sqrt (diagSq frame0)
      ∧ ∀ (Angle : ℚ) (frame : Mat),
          (CaptureCamera.CreateLines lib
              { (framesRun lib cam (frame0 :: frames)).setAngle Angle with
                frame := frame }).anglePerPixel
            = Angle / lib.sqrt (diagSq frame) := by
  constructor
  · have h1 : (CaptureCamera.CreateLines lib { cam with frame := frame0 }).anglePerPixel
        = cam.angleOfView / lib.sqrt (diagSq frame0) :=
      CreateLines_computes lib { cam with frame := frame0 } h0
    have hne : (CaptureCamera.CreateLines lib { cam with frame := frame0 }).anglePerPixel ≠ 0 := by
      rw [h1]
      exact ne_of_gt (div_pos hfov hs)
    have := (framesRun_keeps lib frames _ hne).1
    simp only [framesRun, List.foldl_cons] at this ⊢
    rw [this, h1]
  · intro Angle frame
    exact CreateLines_computes lib _ rfl

/-- Witness of C10 amended: the sample camera, a first frame of 3 by 4 pixels, then one of 6
by 8 pixels. -/
theorem anglePerPixel_cache_witness :
    sampleCam.anglePerPixel = 0 ∧ 0 < sampleCam.angleOfView
      ∧ 0 < (countLib noBlobs).sqrt (diagSq (blackFrame 3 4))
      ∧ (framesRun (countLib noBlobs) sampleCam (blackFrame 3 4 :: [blackFrame 6 8])).anglePerPixel
          = sampleCam.angleOfView / (countLib noBlobs).sqrt (diagSq (blackFrame 3 4))
      ∧ ∀ (Angle : ℚ) (frame : Mat),
          (CaptureCamera.CreateLines (countLib noBlobs)
              { (framesRun (countLib noBlobs) sampleCam
                    (blackFrame 3 4 :: [blackFrame 6 8])).setAngle Angle with
                frame := frame }).anglePerPixel
            = Angle / (countLib noBlobs).sqrt (diagSq frame) :=
  have hs : 0 < (countLib noBlobs).sqrt (diagSq (blackFrame 3 4)) := by
    rw [diagSq_blackFrame 3 4 (by decide)]
    show (0 : ℚ) < ((Nat.sqrt 25 : Nat) : ℚ)
    rw [show Nat.sqrt 25 = 5 from Nat.sqrt_eq 5]
    norm_num
  have hfov : 0 < sampleCam.angleOfView := by
    show (0 : ℚ) < 60
    norm_num
  ⟨rfl, hfov, hs,
    anglePerPixel_cache (countLib noBlobs) sampleCam (blackFrame 3 4) [blackFrame 6 8] rfl hfov hs⟩

/-- C13: for every input sequence of contours, the output of the area-filter loop of
`UseFilter` is an order-preserving subsequence of the input (nothing reordered or
duplicated); it contains, in their order and as often as they occur, all contours whose
area `a` satisfies `20 < a <= 500`, so every in-range contour of the input is in the output;
and the loop body runs at most as many times as there are input contours. -/
theorem areaFilter_subsequence {α : Type} (contourArea : α → ℚ) (contours : List α) :
    (areaFilterLoop contourArea 0 contours).Sublist contours
      ∧ (contours.filter (fun c => !outOfRange (contourArea c))).Sublist
          (areaFilterLoop contourArea 0 contours)
      ∧ (∀ c ∈ contours, 20 < contourArea c → contourArea c ≤ 500 →
          c ∈ areaFilterLoop contourArea 0 contours)
      ∧ areaFilterRounds contourArea 0 contours ≤ contours.length := by
  refine ⟨areaFilterLoop_sublist contourArea 0 contours,
    areaFilterLoop_keeps contourArea 0 contours, ?_, ?_⟩
  · intro c hc h20 h500
    apply (areaFilterLoop_keeps contourArea 0 contours).subset
    rw [List.mem_filter]
    refine ⟨hc, ?_⟩
    simp only [outOfRange, Bool.not_eq_true', Bool.or_eq_false_iff, decide_eq_false_iff_not,
      not_lt, not_le]
    exact ⟨h500, h20⟩
  · exact (areaFilterRounds_le contourArea 0 contours).trans (Nat.sub_le _ _)

/-- C11, as stated, fails: with the reference pixel (10, 50, 10) before the
background-building loop and a first sample whose pixel is (20, 0, 0), the reference pixel
after the loop is (20, 0, 0): channel 1 has gone down from 50 to 0, where the maximum over the
reference and the samples is 50. The same on a whole run of `CalibNoMarkers` on a turned-on
camera whose device delivers the reference frame twice and then the sample. -/
theorem background_channel_decreases :
    (CaptureCamera.backgroundLoop 50 0 [brightSample] darkRef).2 = [[⟨20, 0, 0⟩]]
      ∧ (CaptureCamera.pixelAt darkRef 0 0).v1 = 50
      ∧ (CaptureCamera.pixelAt brightSample 0 0).v1 = 0
      ∧ calibCam.turnedOn = true
      ∧ (CaptureCamera.CalibNoMarkers (countLib noBlobs) calibCam).frameBackground
          = [[⟨20, 0, 0⟩]] := by
  refine ⟨by decide, rfl, rfl, rfl, ?_⟩
  simp [CaptureCamera.CalibNoMarkers, calibCam, CaptureCamera.TurnOn, sampleCam,
    CaptureCamera.ctor, CaptureCamera.ComputeDirVector, grab, CaptureCamera.meanLoop,
    CaptureCamera.meanMoved, countLib]
  decide

/-- C11, amended: the background-building loop of `CalibNoMarkers` applies one step for each
of the first 15 of the 50 sampled frames, in the order in which they are read. A step
replaces the pixel of the reference by the whole pixel of the sample, all three channels at
once, at every position (inside both) where some channel of the sample exceeds that channel
of the reference, and leaves every other pixel as it is: so a channel of the reference can
decrease. After the loop every pixel of the reference is the pixel the reference had there
before the loop or the pixel, at the same place, of one of those 15 samples; samples 16 to
50 are read from the device and do not change the reference. -/
theorem backgroundLoop_pixels (camera : List Mat) (frameBackground : Mat) :
    (CaptureCamera.backgroundLoop 50 0 camera frameBackground).2
        = (camera.take 15).foldl (fun b temp => CaptureCamera.envelope temp b) frameBackground
      ∧ (∀ (temp b : Mat) (i j : Nat),
          CaptureCamera.pixelAt (CaptureCamera.envelope temp b) i j
            = if i < Mat.rows temp ∧ j < Mat.cols temp ∧ CaptureCamera.inside b i j = true
                  ∧ CaptureCamera.outshines (CaptureCamera.pixelAt temp i j)
                      (CaptureCamera.pixelAt b i j) = true then
                CaptureCamera.pixelAt temp i j
              else CaptureCamera.pixelAt b i j)
      ∧ (∀ i j,
          CaptureCamera.pixelAt (CaptureCamera.backgroundLoop 50 0 camera frameBackground).2 i j
              = CaptureCamera.pixelAt frameBackground i j
            ∨ ∃ n, n < 15
                ∧ CaptureCamera.pixelAt
                    (CaptureCamera.backgroundLoop 50 0 camera frameBackground).2 i j
                  = CaptureCamera.pixelAt (camera.getD n []) i j)
      ∧ (CaptureCamera.backgroundLoop 50 0 camera frameBackground).2
          = (CaptureCamera.backgroundLoop 15 0 camera frameBackground).2
      ∧ (CaptureCamera.backgroundLoop 50 0 camera frameBackground).1 = camera.drop 50 := by
  refine ⟨?_, CaptureCamera.envelope_eq, ?_, ?_,
    CaptureCamera.backgroundLoop_camera 50 0 camera frameBackground⟩
  · exact CaptureCamera.backgroundLoop_fold 50 0 camera frameBackground
  · intro i j
    rcases CaptureCamera.backgroundLoop_pixel 50 i j 0 camera frameBackground with
      h | ⟨n, h1, _, h3⟩
    · exact Or.inl h
    · exact Or.inr ⟨n, by omega, h3⟩
  · rw [show (50 : Nat) = 15 + 35 from rfl, CaptureCamera.backgroundLoop_add 15 35]
    exact CaptureCamera.backgroundLoop_late 35 (0 + 15) _ _ (by omega)

/-- C12: `Save` does not write the name the camera was constructed with. For the position
(1, 2, 3), usb id 0 and field of view 60, whatever name is given to the constructor (also
`Cam1`), the line written starts with the name the member was default-initialised with,
because the constructor statement `name = name;` assigns the parameter to itself. -/
theorem Save_writes_member_name :
    ∀ (memberName : String) (memberRoomDimensions roomDimensions : Vec3) (name : String),
      CaptureCamera.Save showWhole
          (CaptureCamera.ctor memberName memberRoomDimensions ⟨1, 2, 3⟩ roomDimensions name 0 60
            false) ""
        = memberName ++ " 1 2 3 0 60\n" := by
  intro memberName memberRoomDimensions roomDimensions name
  simp only [CaptureCamera.Save, CaptureCamera.ctor, CaptureCamera.ComputeDirVector, showWhole]
  simp only [String.append_assoc, String.empty_append]
  norm_num
  rfl

end WebCamCap
